import Mathlib

/-!
Shallow embedding of the fantasy-sports stored-procedure logic
(migrations 20250617131830_sweet_frog.sql and 20250616110333_dry_wave.sql).

Tables are embedded as Lean lists of structures; `find?` models a lookup
returning the first matching row (SQL `SELECT ... INTO` / `LIMIT 1`).
A missing `gameweek_scores` row for a (player, gameweek) pair is modelled
by `scoreFor` returning `none`; `COALESCE(gs.total_points, 0)` /
`COALESCE(gs.minutes_played, 0)` become the `getD`-style defaults in
`basePoints` / `baseMinutes`.  Where the SQL leaves an order
unspecified (`ORDER BY ... DESC LIMIT 1` among ties, `ROW_NUMBER()` among
ties, `SELECT DISTINCT`), the embedding fixes the deterministic choice of
table order / stable insertion.
-/

/-- A row of the `rosters` table: links a fantasy team to a player with the
starter / captain / vice-captain flags. -/
structure RosterEntry where
  fantasy_team_id : Nat
  player_id : Nat
  is_starter : Bool
  is_captain : Bool
  is_vice_captain : Bool
deriving DecidableEq

/-- A row of the `players` table (only the columns the scoring logic reads). -/
structure Player where
  player_id : Nat
  position : String
deriving DecidableEq

/-- A row of the `gameweek_scores` table: per player, per gameweek minutes and
points, produced by the external data feed. -/
structure ScoreRow where
  player_id : Nat
  gameweek : Nat
  total_points : Int
  minutes_played : Nat
deriving DecidableEq

/-- The read-only tables consumed by the Scoring Engine.  None of the stored
procedures under scrutiny ever writes to these three tables, so they are kept
separate from the mutable state. -/
structure StaticDB where
  rosters : List RosterEntry
  players : List Player
  gameweek_scores : List ScoreRow
deriving DecidableEq

/-- The row of `gameweek_scores` for a player and gameweek, if any
(the table is unique per (player, gameweek)). -/
def scoreFor (db : StaticDB) (pid gw : Nat) : Option ScoreRow :=
  db.gameweek_scores.find? (fun gs => gs.player_id == pid && gs.gameweek == gw)

/-- The value `COALESCE(gs.total_points, 0)` under the `LEFT JOIN gameweek_scores`. -/
def basePoints (db : StaticDB) (pid gw : Nat) : Int :=
  match scoreFor db pid gw with
  | some gs => gs.total_points
  | none => 0

/-- The value `COALESCE(gs.minutes_played, 0)` under the `LEFT JOIN gameweek_scores`. -/
def baseMinutes (db : StaticDB) (pid gw : Nat) : Nat :=
  match scoreFor db pid gw with
  | some gs => gs.minutes_played
  | none => 0

/-- The `position` of a player, via the inner `JOIN players`. -/
def playerPosition (db : StaticDB) (pid : Nat) : Option String :=
  (db.players.find? (fun p => p.player_id == pid)).map (·.position)

/-- The candidate pool of `get_auto_substitute`: bench players (`is_starter =
false`) of the team, of the given position, having a score row for the
gameweek with `minutes_played > 0`; paired with their `total_points`. -/
def substituteCandidates (db : StaticDB) (t gw : Nat) (pos : String) :
    List (Nat × Int) :=
  (db.rosters.filter (fun r => r.fantasy_team_id == t && r.is_starter == false)).filterMap
    (fun r =>
      match scoreFor db r.player_id gw, playerPosition db r.player_id with
      | some gs, some p =>
          if p == pos && gs.minutes_played != 0 then some (r.player_id, gs.total_points)
          else none
      | _, _ => none)

/-- Model of `ORDER BY gs.total_points DESC LIMIT 1`: keep the earliest candidate of
maximal points (a deterministic rendering of the tie-unspecified SQL). -/
def pickBest : (Nat × Int) → List (Nat × Int) → (Nat × Int)
  | best, [] => best
  | best, c :: cs => pickBest (if best.2 < c.2 then c else best) cs

/-- Model of `get_auto_substitute(p_fantasy_team_id, p_gameweek, p_position)`:
the bench player of the same position with minutes played and the highest
points for the gameweek, or `none` when no such player exists. -/
def get_auto_substitute (db : StaticDB) (t gw : Nat) (pos : String) : Option Nat :=
  match substituteCandidates db t gw pos with
  | [] => none
  | c :: cs => some (pickBest c cs).1

/-- The rows of the starter loop of `calculate_fantasy_team_points`:
roster entries of the team with `is_starter = true`, inner-joined with
`players` to obtain the position. -/
def starterRows (db : StaticDB) (t : Nat) : List (RosterEntry × String) :=
  (db.rosters.filter (fun r => r.fantasy_team_id == t && r.is_starter)).filterMap
    (fun r => (playerPosition db r.player_id).map (fun pos => (r, pos)))

/-- One starter's points after the auto-substitution check: if the starter has
zero minutes and a substitute is found, the substitute's points are used;
otherwise the starter's own (coalesced) points. -/
def starterContribution (db : StaticDB) (t gw : Nat) (r : RosterEntry)
    (pos : String) : Int :=
  if baseMinutes db r.player_id gw == 0 then
    match get_auto_substitute db t gw pos with
    | some sid => basePoints db sid gw
    | none => basePoints db r.player_id gw
  else basePoints db r.player_id gw

/-- Model of `SELECT player_id INTO captain_id FROM rosters WHERE is_captain`:
first matching roster row, `none` when the team has no captain flagged. -/
def captainId (db : StaticDB) (t : Nat) : Option Nat :=
  (db.rosters.find? (fun r => r.fantasy_team_id == t && r.is_captain)).map (·.player_id)

/-- The vice-captain of the team, analogous to `captainId`. -/
def viceCaptainId (db : StaticDB) (t : Nat) : Option Nat :=
  (db.rosters.find? (fun r => r.fantasy_team_id == t && r.is_vice_captain)).map (·.player_id)

/-- The loop accumulator of `calculate_fantasy_team_points`. -/
structure CalcState where
  total : Int
  captain_points : Int
  vice_captain_points : Int
deriving DecidableEq

/-- One iteration of the starter loop: add the (possibly substituted) points to
the running total, and track the captain's / vice-captain's points.  The
comparisons against possibly-NULL `captain_id` / `vice_captain_id` are false
when those are `none`, like a SQL comparison with NULL. -/
def calcStep (db : StaticDB) (t gw : Nat) (cap vice : Option Nat)
    (s : CalcState) (rp : RosterEntry × String) : CalcState :=
  let pts := starterContribution db t gw rp.1 rp.2
  let s2 : CalcState := { s with total := s.total + pts }
  if some rp.1.player_id == cap then { s2 with captain_points := pts }
  else if some rp.1.player_id == vice then { s2 with vice_captain_points := pts }
  else s2

/-- Model of `calculate_fantasy_team_points(p_fantasy_team_id, p_gameweek)`: sum the
starters' post-substitution points, then add the captain's points again when
positive, else the vice-captain's when positive. -/
def calculate_fantasy_team_points (db : StaticDB) (t gw : Nat) : Int :=
  let cap := captainId db t
  let vice := viceCaptainId db t
  let st := (starterRows db t).foldl (calcStep db t gw cap vice) ⟨0, 0, 0⟩
  if st.captain_points > 0 then st.total + st.captain_points
  else if st.vice_captain_points > 0 then st.total + st.vice_captain_points
  else st.total

/-- The sum of the starters' post-substitution points (step 4 of the spec's
Scoring Engine algorithm), stated independently of the loop accumulator. -/
def starterPointsSum (db : StaticDB) (t gw : Nat) : Int :=
  ((starterRows db t).map (fun rp => starterContribution db t gw rp.1 rp.2)).sum

/-- The captain's tracked (post-substitution) points: the contribution of the
last starter row carrying the captain's player id, `0` when the captain is not
among the starters (or no captain is flagged). -/
def captainComputedPoints (db : StaticDB) (t gw : Nat) : Int :=
  match ((starterRows db t).filter
      (fun rp => some rp.1.player_id == captainId db t)).getLast? with
  | some rp => starterContribution db t gw rp.1 rp.2
  | none => 0

/-- The vice-captain's tracked (post-substitution) points: the contribution of
the last starter row carrying the vice-captain's player id and not the
captain's (the loop tracks the vice-captain in an ELSIF branch), `0` when there
is no such row. -/
def viceComputedPoints (db : StaticDB) (t gw : Nat) : Int :=
  match ((starterRows db t).filter
      (fun rp => !(some rp.1.player_id == captainId db t)
        && some rp.1.player_id == viceCaptainId db t)).getLast? with
  | some rp => starterContribution db t gw rp.1 rp.2
  | none => 0

/-- The captain (or vice-captain) bonus as the spec words it: the captain's
computed points when positive, otherwise the vice-captain's when positive,
otherwise zero. -/
def captainBonus (db : StaticDB) (t gw : Nat) : Int :=
  if captainComputedPoints db t gw > 0 then captainComputedPoints db t gw
  else if viceComputedPoints db t gw > 0 then viceComputedPoints db t gw
  else 0

/-- A row of the `fantasy_teams` table (the columns the procedures touch). -/
structure FantasyTeam where
  fantasy_team_id : Nat
  league_id : Option Nat
  total_points : Int
  gameweek_points : Int
  rank : Nat
deriving DecidableEq

/-- A row of the `fantasy_team_gameweek_points` table (unique per
(fantasy_team_id, gameweek)). -/
structure FtgpRow where
  fantasy_team_id : Nat
  gameweek : Nat
  points : Int
  rank_in_league : Option Nat
deriving DecidableEq

/-- A row of the (recreated) `gameweeks` table of migration sweet_frog; dates
are abstracted as naturals; the SERIAL surrogate key is not modelled. -/
structure GameweekRow where
  gameweek_number : Nat
  start_date : Nat
  end_date : Nat
  status : String
deriving DecidableEq

/-- The mutable tables the finalization / status procedures write. -/
structure DBState where
  fantasy_teams : List FantasyTeam
  ftgp : List FtgpRow
  gameweeks : List GameweekRow
deriving DecidableEq

/-- Model of `INSERT ... ON CONFLICT (fantasy_team_id, gameweek) DO UPDATE SET points =
EXCLUDED.points`: overwrite the points of the existing row for the key, or
append a fresh row (rank and the other columns defaulted). -/
def upsertFtgp (t g : Nat) (pts : Int) (l : List FtgpRow) : List FtgpRow :=
  if l.any (fun r => r.fantasy_team_id == t && r.gameweek == g) then
    l.map (fun r =>
      if r.fantasy_team_id == t && r.gameweek == g then { r with points := pts } else r)
  else l ++ [{ fantasy_team_id := t, gameweek := g, points := pts, rank_in_league := none }]

/-- Model of `UPDATE fantasy_teams SET total_points = total_points + pts,
gameweek_points = pts WHERE fantasy_team_id = t`. -/
def addTeamPoints (t : Nat) (pts : Int) (l : List FantasyTeam) : List FantasyTeam :=
  l.map (fun ft =>
    if ft.fantasy_team_id == t then
      { ft with total_points := ft.total_points + pts, gameweek_points := pts }
    else ft)

/-- One iteration of the per-team loop of `finalize_gameweek`. -/
def processTeam (db : StaticDB) (g : Nat) (s : DBState) (tr : FantasyTeam) : DBState :=
  let pts := calculate_fantasy_team_points db tr.fantasy_team_id g
  { s with
    ftgp := upsertFtgp tr.fantasy_team_id g pts s.ftgp,
    fantasy_teams := addTeamPoints tr.fantasy_team_id pts s.fantasy_teams }

/-- The league of a team, via the join with `fantasy_teams` (first row with the
team's id; `none` for an unknown team or a NULL league). -/
def teamLeague (s : DBState) (t : Nat) : Option Nat :=
  match s.fantasy_teams.find? (fun ft => ft.fantasy_team_id == t) with
  | some ft => ft.league_id
  | none => none

/-- The rows the ranking CTE of `finalize_gameweek` ranges over: gameweek-points
rows of the target gameweek whose team belongs to league `L`. -/
def gwEntries (s : DBState) (g L : Nat) : List FtgpRow :=
  s.ftgp.filter (fun r => r.gameweek == g && teamLeague s r.fantasy_team_id == some L)

/-- The `ROW_NUMBER()` assignment: pair each element's key with its 1-based position
(the list is already sorted by the ranking order). -/
def assignRanks (idOf : α → Nat) : Nat → List α → List (Nat × Nat)
  | _, [] => []
  | k, r :: rs => (idOf r, k) :: assignRanks idOf (k + 1) rs

/-- Model of `UPDATE fantasy_team_gameweek_points SET rank_in_league = ... FROM
ranked_teams WHERE ... fantasy_team_id = ranked.fantasy_team_id AND gameweek = g`. -/
def applyGwRanks (g : Nat) (ranked : List (Nat × Nat)) (l : List FtgpRow) : List FtgpRow :=
  l.map (fun r =>
    if r.gameweek == g then
      match ranked.find? (fun p => p.1 == r.fantasy_team_id) with
      | some p => { r with rank_in_league := some p.2 }
      | none => r
    else r)

/-- Model of `UPDATE fantasy_teams SET rank = ... FROM overall_ranked WHERE ...`. -/
def applyTeamRanks (ranked : List (Nat × Nat)) (l : List FantasyTeam) : List FantasyTeam :=
  l.map (fun ft =>
    match ranked.find? (fun p => p.1 == ft.fantasy_team_id) with
    | some p => { ft with rank := p.2 }
    | none => ft)

/-- The teams of league `L` (join used by the overall-rank CTE). -/
def leagueTeams (s : DBState) (L : Nat) : List FantasyTeam :=
  s.fantasy_teams.filter (fun ft => ft.league_id == some L)

/-- One iteration of the per-league loop of `finalize_gameweek`: rank the
gameweek-points rows of league `L` by points descending (`ROW_NUMBER()`; ties
resolved deterministically by stable insertion sort), write those ranks, then
rank the league's teams by cumulative `total_points` descending and write the
persistent `rank` field.  The league's gameweek rows sorted by points
descending (stable insertion sort; the SQL leaves tie order unspecified): -/
def sortedEntries (g : Nat) (s : DBState) (L : Nat) : List FtgpRow :=
  List.insertionSort (fun a b : FtgpRow => b.points ≤ a.points) (gwEntries s g L)

/-- The `ROW_NUMBER()` pairs (team id, rank) of the league's gameweek rows. -/
def rankedPairs (g : Nat) (s : DBState) (L : Nat) : List (Nat × Nat) :=
  assignRanks (fun r : FtgpRow => r.fantasy_team_id) 1 (sortedEntries g s L)

def rankLeague (g : Nat) (s : DBState) (L : Nat) : DBState :=
  let ranked := rankedPairs g s L
  let s1 : DBState := { s with ftgp := applyGwRanks g ranked s.ftgp }
  let sortedTeams := List.insertionSort
    (fun a b : FantasyTeam => b.total_points ≤ a.total_points) (leagueTeams s1 L)
  let rankedTeams := assignRanks (fun ft : FantasyTeam => ft.fantasy_team_id) 1 sortedTeams
  { s1 with fantasy_teams := applyTeamRanks rankedTeams s1.fantasy_teams }

/-- Model of `SELECT DISTINCT league_id FROM fantasy_teams WHERE league_id IS NOT NULL`,
in first-occurrence order. -/
def distinctLeagues (s : DBState) : List Nat :=
  (s.fantasy_teams.filterMap (·.league_id)).dedup

/-- Mark the gameweek's status. -/
def setStatusRows (g : Nat) (st : String) (l : List GameweekRow) : List GameweekRow :=
  l.map (fun gw => if gw.gameweek_number == g then { gw with status := st } else gw)

/-- Model of `finalize_gameweek(p_gameweek)`: fail when the gameweek does not exist;
otherwise run the Scoring Engine for every team with a league, upserting the
per-gameweek record and incrementing the cumulative total, then rank every
league, then mark the gameweek finalized.  An error models `RAISE EXCEPTION`,
which aborts the whole transaction.  The per-team loop of the procedure: -/
def loopTeams (db : StaticDB) (g : Nat) (s : DBState) : DBState :=
  (s.fantasy_teams.filter (fun ft => ft.league_id.isSome)).foldl (processTeam db g) s

/-- The per-league ranking loop of `finalize_gameweek` over the distinct
leagues. -/
def loopLeagues (g : Nat) (s : DBState) : DBState :=
  (distinctLeagues s).foldl (rankLeague g) s

/-- The successful body of `finalize_gameweek`: run the team loop, then the
league-ranking loop, then mark the gameweek finalized. -/
def finalizeCore (db : StaticDB) (g : Nat) (s : DBState) : DBState :=
  let s2 := loopLeagues g (loopTeams db g s)
  { s2 with gameweeks := setStatusRows g "finalized" s2.gameweeks }

def finalize_gameweek (db : StaticDB) (s : DBState) (g : Nat) : Except String DBState :=
  if s.gameweeks.any (fun gw => gw.gameweek_number == g) then
    Except.ok (finalizeCore db g s)
  else
    Except.error "gameweek does not exist"

/-- The transactional effect of calling `finalize_gameweek`: an exception rolls
the transaction back, leaving the state unchanged. -/
def applyFinalize (db : StaticDB) (s : DBState) (g : Nat) : DBState :=
  match finalize_gameweek db s g with
  | Except.ok s2 => s2
  | Except.error _ => s

/-- The status values the CHECK constraint and `set_gameweek_status` accept. -/
def validStatuses : List String := ["upcoming", "active", "locked", "finalized"]

/-- Model of `set_gameweek_status(p_gameweek, p_status)`: reject an invalid status,
update the row, reject when no row matched (the `IF NOT FOUND RAISE` rolls the
update back). -/
def set_gameweek_status (s : DBState) (g : Nat) (st : String) : Except String DBState :=
  if validStatuses.contains st then
    if s.gameweeks.any (fun gw => gw.gameweek_number == g) then
      Except.ok { s with gameweeks := setStatusRows g st s.gameweeks }
    else Except.error "gameweek not found"
  else Except.error "invalid status"

/-- The transactional effect of `set_gameweek_status` (rollback on error). -/
def applySetStatus (s : DBState) (g : Nat) (st : String) : DBState :=
  match set_gameweek_status s g st with
  | Except.ok s2 => s2
  | Except.error _ => s

/-- Whether a call succeeded. -/
def exceptIsOk : Except String DBState → Bool
  | Except.ok _ => true
  | Except.error _ => false

/-- The status column of the gameweek, via the unique `gameweek_number`. -/
def statusOf (s : DBState) (g : Nat) : Option String :=
  (s.gameweeks.find? (fun gw => gw.gameweek_number == g)).map (·.status)

/-- A row of the `real_matches` table (the columns the generator reads;
`match_date` is nullable). -/
structure RealMatch where
  gameweek : Nat
  match_date : Option Nat
  status : String
deriving DecidableEq

/-- The `WHERE match_date IS NOT NULL` restriction of the generator's query. -/
def matchesWithDate (ms : List RealMatch) : List RealMatch :=
  ms.filter (·.match_date.isSome)

/-- The distinct gameweek numbers of the dated matches, ascending
(`GROUP BY gameweek ORDER BY gameweek`). -/
def gwNumbersSorted (ms : List RealMatch) : List Nat :=
  List.insertionSort (fun a b : Nat => a ≤ b) ((matchesWithDate ms).map (·.gameweek)).dedup

/-- The dates of the dated matches of gameweek `g`. -/
def matchDates (ms : List RealMatch) (g : Nat) : List Nat :=
  (matchesWithDate ms).filterMap (fun m => if m.gameweek == g then m.match_date else none)

/-- Minimum of a list of naturals (`MIN(...)` over a nonempty group). -/
def minOf : List Nat → Nat
  | [] => 0
  | x :: xs => xs.foldl min x

/-- Maximum of a list of naturals (`MAX(...)` over a nonempty group). -/
def maxOf : List Nat → Nat
  | [] => 0
  | x :: xs => xs.foldl max x

/-- The generated status of gameweek `g`: `finalized` when every dated match of
the group is completed, else `upcoming`. -/
def derivedStatus (ms : List RealMatch) (g : Nat) : String :=
  if ((matchesWithDate ms).filter (fun m => m.gameweek == g)).all
      (fun m => m.status == "completed") then "finalized"
  else "upcoming"

/-- The gameweek rows derived from the match data. -/
def deriveGameweeks (ms : List RealMatch) : List GameweekRow :=
  (gwNumbersSorted ms).map (fun g =>
    { gameweek_number := g, start_date := minOf (matchDates ms g),
      end_date := maxOf (matchDates ms g), status := derivedStatus ms g })

/-- Model of `generate_gameweeks_from_matches()`: `DELETE FROM gameweeks` then insert one
row per gameweek number found in `real_matches`, with the earliest / latest
match date as bounds and the derived status. -/
def generate_gameweeks_from_matches (ms : List RealMatch) (s : DBState) : DBState :=
  { s with gameweeks := deriveGameweeks ms }

/-- A row of the `gameweeks` table of migration dry_wave (time-derived flags
variant); timestamps abstracted as naturals. -/
structure Gw2 where
  gameweek_number : Nat
  deadline_time : Nat
  start_time : Nat
  end_time : Nat
  is_current : Bool
  is_next : Bool
  is_finished : Bool
deriving DecidableEq

/-- Minimum of a list of naturals as an `Option` (`MIN(...)` of a possibly
empty set, NULL when empty). -/
def minOfOpt : List Nat → Option Nat
  | [] => none
  | x :: xs => some (xs.foldl min x)

/-- Model of `update_gameweek_status()` of migration dry_wave: clear the current / next
flags, mark current every gameweek whose time window contains `now`, mark next
the gameweek of least number with a future start (no row when none exists), and
mark finished every gameweek whose end lies in the past. -/
def update_gameweek_status (now : Nat) (l : List Gw2) : List Gw2 :=
  let l1 : List Gw2 := l.map (fun g => { g with is_current := false, is_next := false })
  let l2 : List Gw2 := l1.map (fun g =>
    if g.start_time ≤ now ∧ now ≤ g.end_time then { g with is_current := true } else g)
  let l3 : List Gw2 :=
    match minOfOpt ((l2.filter (fun g => now < g.start_time)).map (·.gameweek_number)) with
    | some m => l2.map (fun g => if g.gameweek_number == m then { g with is_next := true } else g)
    | none => l2
  l3.map (fun g => if g.end_time < now then { g with is_finished := true } else g)

/-- The loop body adds the starter's (possibly substituted) points to the
running total in every branch. -/
theorem calcStep_total (db : StaticDB) (t gw : Nat) (cap vice : Option Nat)
    (s : CalcState) (rp : RosterEntry × String) :
    (calcStep db t gw cap vice s rp).total
      = s.total + starterContribution db t gw rp.1 rp.2 := by
  unfold calcStep
  dsimp only
  split
  · rfl
  · split <;> rfl

/-- The loop body assigns the captain's tracked points exactly on rows carrying
the captain's id. -/
theorem calcStep_captain (db : StaticDB) (t gw : Nat) (cap vice : Option Nat)
    (s : CalcState) (rp : RosterEntry × String) :
    (calcStep db t gw cap vice s rp).captain_points
      = if some rp.1.player_id == cap then starterContribution db t gw rp.1 rp.2
        else s.captain_points := by
  unfold calcStep
  dsimp only
  split
  · simp_all
  · split <;> simp_all

/-- The loop body assigns the vice-captain's tracked points exactly on rows
carrying the vice-captain's id and not the captain's. -/
theorem calcStep_vice (db : StaticDB) (t gw : Nat) (cap vice : Option Nat)
    (s : CalcState) (rp : RosterEntry × String) :
    (calcStep db t gw cap vice s rp).vice_captain_points
      = if !(some rp.1.player_id == cap) && (some rp.1.player_id == vice) then
          starterContribution db t gw rp.1 rp.2
        else s.vice_captain_points := by
  unfold calcStep
  dsimp only
  split
  · simp_all
  · split <;> simp_all

/-- Over the whole starter loop the running total accumulates the sum of the
starters' post-substitution points. -/
theorem foldl_calcStep_total (db : StaticDB) (t gw : Nat) (cap vice : Option Nat) :
    ∀ (l : List (RosterEntry × String)) (s : CalcState),
      (l.foldl (calcStep db t gw cap vice) s).total
        = s.total + (l.map (fun rp => starterContribution db t gw rp.1 rp.2)).sum
  | [], s => by simp
  | x :: xs, s => by
    rw [List.foldl_cons, foldl_calcStep_total db t gw cap vice xs,
      calcStep_total, List.map_cons, List.sum_cons, add_assoc]

/-- Over the whole starter loop the captain's tracked points end up being the
contribution of the last row carrying the captain's id (if any). -/
theorem foldl_calcStep_captain (db : StaticDB) (t gw : Nat) (cap vice : Option Nat) :
    ∀ (l : List (RosterEntry × String)) (s : CalcState),
      (l.foldl (calcStep db t gw cap vice) s).captain_points
        = ((l.filter (fun rp => some rp.1.player_id == cap)).getLast?).elim
            s.captain_points (fun rp => starterContribution db t gw rp.1 rp.2)
  | [], s => by simp
  | x :: xs, s => by
    rw [List.foldl_cons, foldl_calcStep_captain db t gw cap vice xs, calcStep_captain,
      List.filter_cons]
    by_cases hx : (some x.1.player_id == cap) = true
    · rw [if_pos hx, if_pos hx]
      cases hxs : xs.filter (fun rp => some rp.1.player_id == cap) with
      | nil => simp
      | cons y ys =>
        cases hz : (y :: ys).getLast? with
        | none => simp at hz
        | some z => simp [List.getLast?_cons_cons, hz]
    · rw [if_neg hx, if_neg hx]

/-- Over the whole starter loop the vice-captain's tracked points end up being
the contribution of the last row carrying the vice-captain's id and not the
captain's (if any). -/
theorem foldl_calcStep_vice (db : StaticDB) (t gw : Nat) (cap vice : Option Nat) :
    ∀ (l : List (RosterEntry × String)) (s : CalcState),
      (l.foldl (calcStep db t gw cap vice) s).vice_captain_points
        = ((l.filter (fun rp =>
              !(some rp.1.player_id == cap) && (some rp.1.player_id == vice))).getLast?).elim
            s.vice_captain_points (fun rp => starterContribution db t gw rp.1 rp.2)
  | [], s => by simp
  | x :: xs, s => by
    rw [List.foldl_cons, foldl_calcStep_vice db t gw cap vice xs, calcStep_vice,
      List.filter_cons]
    by_cases hx : (!(some x.1.player_id == cap) && (some x.1.player_id == vice)) = true
    · rw [if_pos hx, if_pos hx]
      cases hxs : xs.filter (fun rp =>
          !(some rp.1.player_id == cap) && (some rp.1.player_id == vice)) with
      | nil => simp
      | cons y ys =>
        cases hz : (y :: ys).getLast? with
        | none => simp at hz
        | some z => simp [List.getLast?_cons_cons, hz]
    · rw [if_neg hx, if_neg hx]

/-- Decomposition of the Scoring Engine: the team's result is the sum of the
starters' post-substitution points plus the captain (or vice-captain) bonus. -/
theorem calc_points_decomp (db : StaticDB) (t gw : Nat) :
    calculate_fantasy_team_points db t gw
      = starterPointsSum db t gw + captainBonus db t gw := by
  have hcap : ((starterRows db t).foldl
        (calcStep db t gw (captainId db t) (viceCaptainId db t)) ⟨0, 0, 0⟩).captain_points
      = captainComputedPoints db t gw := by
    rw [foldl_calcStep_captain]
    unfold captainComputedPoints
    cases ((starterRows db t).filter
        (fun rp => some rp.1.player_id == captainId db t)).getLast? <;> rfl
  have hvice : ((starterRows db t).foldl
        (calcStep db t gw (captainId db t) (viceCaptainId db t)) ⟨0, 0, 0⟩).vice_captain_points
      = viceComputedPoints db t gw := by
    rw [foldl_calcStep_vice]
    unfold viceComputedPoints
    cases ((starterRows db t).filter (fun rp =>
        !(some rp.1.player_id == captainId db t)
          && (some rp.1.player_id == viceCaptainId db t))).getLast? <;> rfl
  have htot : ((starterRows db t).foldl
        (calcStep db t gw (captainId db t) (viceCaptainId db t)) ⟨0, 0, 0⟩).total
      = starterPointsSum db t gw := by
    rw [foldl_calcStep_total]
    unfold starterPointsSum
    exact zero_add _
  unfold calculate_fantasy_team_points captainBonus
  dsimp only
  rw [hcap, hvice, htot]
  split_ifs <;> omega

/-- Unfolding equation for `pickBest` on a cons cell. -/
theorem pickBest_cons (best c : Nat × Int) (cs : List (Nat × Int)) :
    pickBest best (c :: cs) = pickBest (if best.2 < c.2 then c else best) cs := rfl

/-- The selected candidate is the seed or one of the listed candidates. -/
theorem pickBest_mem : ∀ (cs : List (Nat × Int)) (best : Nat × Int),
    pickBest best cs = best ∨ pickBest best cs ∈ cs
  | [], _ => Or.inl rfl
  | c :: cs, best => by
    rw [pickBest_cons]
    rcases pickBest_mem cs (if best.2 < c.2 then c else best) with h | h
    · rw [h]
      by_cases hbc : best.2 < c.2
      · rw [if_pos hbc]; exact Or.inr (List.mem_cons_self c cs)
      · rw [if_neg hbc]; exact Or.inl rfl
    · exact Or.inr (List.mem_cons_of_mem c h)

/-- The selected candidate has maximal points among the seed and the
candidates. -/
theorem pickBest_le : ∀ (cs : List (Nat × Int)) (best : Nat × Int),
    best.2 ≤ (pickBest best cs).2 ∧ ∀ x ∈ cs, x.2 ≤ (pickBest best cs).2
  | [], best => ⟨le_refl _, by simp⟩
  | c :: cs, best => by
    rw [pickBest_cons]
    obtain ⟨h1, h2⟩ := pickBest_le cs (if best.2 < c.2 then c else best)
    constructor
    · refine le_trans ?_ h1
      by_cases hbc : best.2 < c.2
      · rw [if_pos hbc]; omega
      · rw [if_neg hbc]
    · intro x hx
      rcases List.mem_cons.mp hx with rfl | hx
      · refine le_trans ?_ h1
        by_cases hbc : best.2 < x.2
        · rw [if_pos hbc]
        · rw [if_neg hbc]; omega
      · exact h2 x hx

/-- Every substitute candidate's recorded pair is consistent: its second
component is exactly the candidate player's coalesced points for the
gameweek. -/
theorem substituteCandidates_points (db : StaticDB) (t gw : Nat) (pos : String) :
    ∀ c ∈ substituteCandidates db t gw pos, basePoints db c.1 gw = c.2 := by
  intro c hc
  unfold substituteCandidates at hc
  rw [List.mem_filterMap] at hc
  obtain ⟨r, hr, hfr⟩ := hc
  cases hsf : scoreFor db r.player_id gw with
  | none =>
    rw [hsf] at hfr
    cases hpp : playerPosition db r.player_id <;> rw [hpp] at hfr <;> simp at hfr
  | some gs =>
    cases hpp : playerPosition db r.player_id with
    | none => rw [hsf, hpp] at hfr; simp at hfr
    | some p =>
      rw [hsf, hpp] at hfr
      dsimp only at hfr
      by_cases hcond : (p == pos && gs.minutes_played != 0) = true
      · rw [if_pos hcond] at hfr
        injection hfr with hfr
        subst hfr
        unfold basePoints
        rw [hsf]
      · rw [if_neg hcond] at hfr
        exact absurd hfr (by simp)

/-- When the candidate pool is nonempty, the auto-substitute exists, is a
candidate, and carries the maximal points of the pool. -/
theorem get_auto_substitute_best (db : StaticDB) (t gw : Nat) (pos : String)
    (c : Nat × Int) (cs : List (Nat × Int))
    (h : substituteCandidates db t gw pos = c :: cs) :
    ∃ b, b ∈ substituteCandidates db t gw pos
      ∧ get_auto_substitute db t gw pos = some b.1
      ∧ basePoints db b.1 gw = b.2
      ∧ ∀ x ∈ substituteCandidates db t gw pos, x.2 ≤ b.2 := by
  have hmem : pickBest c cs ∈ substituteCandidates db t gw pos := by
    rw [h]
    rcases pickBest_mem cs c with he | he
    · rw [he]; exact List.mem_cons_self c cs
    · exact List.mem_cons_of_mem c he
  refine ⟨pickBest c cs, hmem, ?_, ?_, ?_⟩
  · unfold get_auto_substitute
    rw [h]
  · exact substituteCandidates_points db t gw pos _ hmem
  · intro x hx
    rw [h] at hx
    rcases List.mem_cons.mp hx with rfl | hx
    · exact (pickBest_le cs x).1
    · exact (pickBest_le cs c).2 x hx

/-- Coalesced points are non-negative when every score row of the feed is. -/
theorem basePoints_nonneg (db : StaticDB) (pid gw : Nat)
    (h : ∀ gs ∈ db.gameweek_scores, 0 ≤ gs.total_points) :
    0 ≤ basePoints db pid gw := by
  unfold basePoints
  cases hsf : scoreFor db pid gw with
  | none => exact le_refl 0
  | some gs =>
    exact h gs (List.mem_of_find?_eq_some hsf)

/-- A starter's post-substitution contribution is non-negative when every score
row of the feed is. -/
theorem starterContribution_nonneg (db : StaticDB) (t gw : Nat) (r : RosterEntry)
    (pos : String) (h : ∀ gs ∈ db.gameweek_scores, 0 ≤ gs.total_points) :
    0 ≤ starterContribution db t gw r pos := by
  unfold starterContribution
  split
  · cases get_auto_substitute db t gw pos with
    | none => exact basePoints_nonneg db r.player_id gw h
    | some sid => exact basePoints_nonneg db sid gw h
  · exact basePoints_nonneg db r.player_id gw h

/-- The captain (or vice-captain) bonus is never negative. -/
theorem captainBonus_nonneg (db : StaticDB) (t gw : Nat) :
    0 ≤ captainBonus db t gw := by
  unfold captainBonus
  split_ifs <;> omega

/-- Example database for the C1 scenario: team 7, gameweek 3, captain
(player 1) scored 10 in 90 minutes, vice-captain (player 2) scored 5 in 90
minutes, a third starter scored 2. -/
def c1db : StaticDB :=
  { rosters := [⟨7, 1, true, true, false⟩, ⟨7, 2, true, false, true⟩,
      ⟨7, 3, true, false, false⟩],
    players := [⟨1, "FWD"⟩, ⟨2, "MID"⟩, ⟨3, "DEF"⟩],
    gameweek_scores := [⟨1, 3, 10, 90⟩, ⟨2, 3, 5, 90⟩, ⟨3, 3, 2, 90⟩] }

/-- C1: the Scoring Engine applies the captain bonus as specified: the result
decomposes as the starters' post-substitution sum plus the captain's computed
points when positive, else the vice-captain's when positive, else nothing; and
in the concrete scenario (captain scored 10 and played, vice-captain scored 5
and played) the bonus is exactly +10. -/
theorem C1_captain_bonus :
    (∀ (db : StaticDB) (t gw : Nat),
      calculate_fantasy_team_points db t gw
        = starterPointsSum db t gw
          + (if captainComputedPoints db t gw > 0 then captainComputedPoints db t gw
             else if viceComputedPoints db t gw > 0 then viceComputedPoints db t gw
             else 0))
    ∧ captainComputedPoints c1db 7 3 = 10
    ∧ viceComputedPoints c1db 7 3 = 5
    ∧ baseMinutes c1db 1 3 = 90
    ∧ baseMinutes c1db 2 3 = 90
    ∧ calculate_fantasy_team_points c1db 7 3 = starterPointsSum c1db 7 3 + 10 := by
  refine ⟨?_, by decide, by decide, by decide, by decide, by decide⟩
  intro db t gw
  rw [calc_points_decomp]
  rfl

/-- The starter roster row of the C2 counterexample team. -/
def c2r : RosterEntry := ⟨10, 1, true, false, false⟩

/-- Example database refuting the second half of C2: the sole starter
(player 1) has a score row with zero minutes but 3 points, and there is no
bench player at all. -/
def c2db : StaticDB :=
  { rosters := [c2r],
    players := [⟨1, "MID"⟩],
    gameweek_scores := [⟨1, 1, 3, 0⟩] }

/-- C2 counterexample: a starter with zero minutes and no eligible bench player
of the same position contributes its recorded 3 points to the team total, not
zero. -/
theorem C2_counterexample :
    (c2r, "MID") ∈ starterRows c2db 10
    ∧ baseMinutes c2db 1 1 = 0
    ∧ get_auto_substitute c2db 10 1 "MID" = none
    ∧ starterContribution c2db 10 1 c2r "MID" = 3
    ∧ calculate_fantasy_team_points c2db 10 1 = 3 := by
  decide

/-- C2 (amended): for a starter with zero minutes, when the eligible bench pool
(same position, minutes played) is nonempty the starter's contribution is the
points of a pool member of maximal points; when the pool is empty the
contribution is the starter's own coalesced points (zero only when the starter
has no score row or a zero-point one). -/
theorem C2_substitution_amended (db : StaticDB) (t gw : Nat) (r : RosterEntry)
    (pos : String) (hmem : (r, pos) ∈ starterRows db t)
    (hmin : baseMinutes db r.player_id gw = 0) :
    (substituteCandidates db t gw pos ≠ [] →
       ∃ b, b ∈ substituteCandidates db t gw pos
         ∧ starterContribution db t gw r pos = b.2
         ∧ ∀ x ∈ substituteCandidates db t gw pos, x.2 ≤ b.2)
    ∧ (substituteCandidates db t gw pos = [] →
       starterContribution db t gw r pos = basePoints db r.player_id gw) := by
  constructor
  · intro hne
    cases hcs : substituteCandidates db t gw pos with
    | nil => exact absurd hcs hne
    | cons c cs =>
      obtain ⟨b, hb, hget, hbp, hmax⟩ := get_auto_substitute_best db t gw pos c cs hcs
      rw [hcs] at hb hmax
      refine ⟨b, hb, ?_, hmax⟩
      unfold starterContribution
      rw [if_pos (by simp [hmin]), hget]
      exact hbp
  · intro hnil
    unfold starterContribution
    rw [if_pos (by simp [hmin])]
    unfold get_auto_substitute
    rw [hnil]

/-- The starter roster row of the C2 witness team. -/
def c2wr : RosterEntry := ⟨4, 9, true, false, false⟩

/-- Witness database for the C2 amendment: starter (player 9) played zero
minutes; bench forwards 5 and 6 played, scoring 5 and 8. -/
def c2wdb : StaticDB :=
  { rosters := [c2wr, ⟨4, 5, false, false, false⟩, ⟨4, 6, false, false, false⟩],
    players := [⟨9, "FWD"⟩, ⟨5, "FWD"⟩, ⟨6, "FWD"⟩],
    gameweek_scores := [⟨9, 2, 0, 0⟩, ⟨5, 2, 5, 90⟩, ⟨6, 2, 8, 90⟩] }

/-- Witness for the amended C2 at a concrete input. -/
theorem C2_substitution_amended_witness :
    (substituteCandidates c2wdb 4 2 "FWD" ≠ [] →
       ∃ b, b ∈ substituteCandidates c2wdb 4 2 "FWD"
         ∧ starterContribution c2wdb 4 2 c2wr "FWD" = b.2
         ∧ ∀ x ∈ substituteCandidates c2wdb 4 2 "FWD", x.2 ≤ b.2)
    ∧ (substituteCandidates c2wdb 4 2 "FWD" = [] →
       starterContribution c2wdb 4 2 c2wr "FWD" = basePoints c2wdb 9 2) :=
  C2_substitution_amended c2wdb 4 2 c2wr "FWD" (by decide) (by decide)

/-- Example database refuting C5: the sole starter recorded -3 points in 90
minutes, so the Scoring Engine returns a negative total. -/
def c5db : StaticDB :=
  { rosters := [⟨2, 1, true, false, false⟩],
    players := [⟨1, "GK"⟩],
    gameweek_scores := [⟨1, 1, -3, 90⟩] }

/-- C5 counterexample: with a negative player score the Scoring Engine's result
is negative, not a non-negative integer. -/
theorem C5_counterexample :
    calculate_fantasy_team_points c5db 2 1 = -3
    ∧ calculate_fantasy_team_points c5db 2 1 < 0 := by
  decide

/-- C5 (amended): the Scoring Engine's result is an integer that is
non-negative whenever every recorded score of the feed is non-negative; with
negative recorded scores the result can be negative. -/
theorem C5_nonneg_amended (db : StaticDB) (t gw : Nat)
    (h : ∀ gs ∈ db.gameweek_scores, 0 ≤ gs.total_points) :
    0 ≤ calculate_fantasy_team_points db t gw := by
  rw [calc_points_decomp]
  have h1 : 0 ≤ starterPointsSum db t gw := by
    unfold starterPointsSum
    apply List.sum_nonneg
    intro x hx
    rw [List.mem_map] at hx
    obtain ⟨rp, _, rfl⟩ := hx
    exact starterContribution_nonneg db t gw rp.1 rp.2 h
  have h2 := captainBonus_nonneg db t gw
  omega

/-- Witness for the amended C5 at a concrete input. -/
theorem C5_nonneg_amended_witness : 0 ≤ calculate_fantasy_team_points c1db 7 3 :=
  C5_nonneg_amended c1db 7 3 (by decide)

/-- C10: when the flagged captain is not among the starters, the captain's
tracked points stay zero regardless of the captain's actual score, and the
bonus falls back to the vice-captain's computed points when positive, else no
bonus. -/
theorem C10_bench_captain (db : StaticDB) (t gw : Nat)
    (hcap : (captainId db t).isSome = true)
    (hns : (starterRows db t).filter
        (fun rp => some rp.1.player_id == captainId db t) = []) :
    captainComputedPoints db t gw = 0
    ∧ calculate_fantasy_team_points db t gw
        = starterPointsSum db t gw
          + (if viceComputedPoints db t gw > 0 then viceComputedPoints db t gw else 0) := by
  have hc0 : captainComputedPoints db t gw = 0 := by
    unfold captainComputedPoints
    rw [hns]
    rfl
  refine ⟨hc0, ?_⟩
  rw [calc_points_decomp]
  unfold captainBonus
  rw [hc0]
  norm_num

/-- Witness database for C10: the captain (player 1) sits on the bench with 20
points in 90 minutes; the vice-captain (player 2) starts and scores 5. -/
def c10db : StaticDB :=
  { rosters := [⟨3, 1, false, true, false⟩, ⟨3, 2, true, false, true⟩,
      ⟨3, 4, true, false, false⟩],
    players := [⟨1, "FWD"⟩, ⟨2, "MID"⟩, ⟨4, "DEF"⟩],
    gameweek_scores := [⟨1, 1, 20, 90⟩, ⟨2, 1, 5, 90⟩, ⟨4, 1, 2, 90⟩] }

/-- Witness for C10 at a concrete input. -/
theorem C10_bench_captain_witness :
    captainComputedPoints c10db 3 1 = 0
    ∧ calculate_fantasy_team_points c10db 3 1
        = starterPointsSum c10db 3 1
          + (if viceComputedPoints c10db 3 1 > 0 then viceComputedPoints c10db 3 1 else 0) :=
  C10_bench_captain c10db 3 1 (by decide) (by decide)

/-- C9: regenerating the gameweeks from identical match input twice yields the
same gameweek rows (numbers, derived date bounds, statuses) as one run: the
operation deletes every gameweek row before inserting rows derived from the
matches alone. -/
theorem C9_generate_idempotent (ms : List RealMatch) (s : DBState) :
    generate_gameweeks_from_matches ms (generate_gameweeks_from_matches ms s)
      = generate_gameweeks_from_matches ms s := rfl

/-- Gameweeks state for the C6 witness: only gameweek number 2 exists. -/
def c6state : DBState :=
  { fantasy_teams := [⟨1, some 1, 0, 0, 1⟩], ftgp := [],
    gameweeks := [⟨2, 0, 5, "upcoming"⟩] }

/-- Empty static tables for the C6 witness. -/
def c6db : StaticDB := { rosters := [], players := [], gameweek_scores := [] }

/-- C6: finalizing a gameweek number absent from the gameweeks table raises an
error, and the transactional effect leaves every table unchanged. -/
theorem C6_nonexistent_gameweek (db : StaticDB) (s : DBState) (g : Nat)
    (h : s.gameweeks.any (fun gw => gw.gameweek_number == g) = false) :
    finalize_gameweek db s g = Except.error "gameweek does not exist"
    ∧ applyFinalize db s g = s := by
  have he : finalize_gameweek db s g = Except.error "gameweek does not exist" := by
    unfold finalize_gameweek
    rw [if_neg (by simp [h])]
  refine ⟨he, ?_⟩
  unfold applyFinalize
  rw [he]

/-- Witness for C6 at a concrete input. -/
theorem C6_nonexistent_gameweek_witness :
    finalize_gameweek c6db c6state 5 = Except.error "gameweek does not exist"
    ∧ applyFinalize c6db c6state 5 = c6state :=
  C6_nonexistent_gameweek c6db c6state 5 (by decide)

/-- After `setStatusRows`, the looked-up status of an existing gameweek is the
written one. -/
theorem statusOf_setStatusRows (g : Nat) (st : String) :
    ∀ (l : List GameweekRow), l.any (fun gw => gw.gameweek_number == g) = true →
      ((setStatusRows g st l).find? (fun gw => gw.gameweek_number == g)).map (·.status)
        = some st
  | [], h => by simp at h
  | x :: xs, h => by
    unfold setStatusRows
    rw [List.map_cons]
    by_cases hx : (x.gameweek_number == g) = true
    · rw [if_pos hx]
      rw [List.find?_cons_of_pos _ (by simpa using hx)]
      rfl
    · rw [if_neg hx]
      rw [List.find?_cons_of_neg _ (by simpa using hx)]
      have hxs : xs.any (fun gw => gw.gameweek_number == g) = true := by
        rcases List.any_eq_true.mp h with ⟨a, ha, hpa⟩
        rcases List.mem_cons.mp ha with rfl | ha
        · exact absurd hpa (by simpa using hx)
        · exact List.any_eq_true.mpr ⟨a, ha, hpa⟩
      exact statusOf_setStatusRows g st xs hxs

/-- C7 (amended): `set_gameweek_status` overwrites the status of any existing
gameweek with any valid status, regardless of the previous status; in
particular a finalized gameweek can be moved away from `finalized`, so the
finalized state is not terminal. -/
theorem C7_status_amended (s : DBState) (g : Nat) (st : String)
    (hvalid : validStatuses.contains st = true)
    (hex : s.gameweeks.any (fun gw => gw.gameweek_number == g) = true) :
    exceptIsOk (set_gameweek_status s g st) = true
    ∧ statusOf (applySetStatus s g st) g = some st := by
  have hok : set_gameweek_status s g st
      = Except.ok { s with gameweeks := setStatusRows g st s.gameweeks } := by
    unfold set_gameweek_status
    rw [if_pos hvalid, if_pos hex]
  constructor
  · rw [hok]; rfl
  · unfold applySetStatus
    rw [hok]
    unfold statusOf
    exact statusOf_setStatusRows g st s.gameweeks hex

/-- State for the C7 counterexample / witness: gameweek 1 is finalized. -/
def c7state : DBState :=
  { fantasy_teams := [], ftgp := [], gameweeks := [⟨1, 0, 10, "finalized"⟩] }

/-- C7 counterexample: `set_gameweek_status` succeeds in moving a finalized
gameweek to `active`, so `finalized` is not terminal. -/
theorem C7_counterexample :
    statusOf c7state 1 = some "finalized"
    ∧ exceptIsOk (set_gameweek_status c7state 1 "active") = true
    ∧ statusOf (applySetStatus c7state 1 "active") 1 = some "active" := by
  decide

/-- Witness for the amended C7 at a concrete input. -/
theorem C7_status_amended_witness :
    exceptIsOk (set_gameweek_status c7state 1 "locked") = true
    ∧ statusOf (applySetStatus c7state 1 "locked") 1 = some "locked" :=
  C7_status_amended c7state 1 "locked" (by decide) (by decide)

/-- Gameweek list with a single window [10, 20] for the C8 counterexample. -/
def c8one : List Gw2 := [⟨1, 5, 10, 20, false, false, false⟩]

/-- Gameweek list with overlapping windows for the C8 counterexample. -/
def c8two : List Gw2 :=
  [⟨1, 5, 10, 20, false, false, false⟩, ⟨2, 6, 15, 25, false, false, false⟩]

/-- C8 counterexample: after `update_gameweek_status` the number of gameweeks
with `is_current = true` can be zero (clock outside every window) or two
(overlapping windows), not exactly one. -/
theorem C8_counterexample :
    ((update_gameweek_status 30 c8one).filter (·.is_current)).length = 0
    ∧ ((update_gameweek_status 16 c8two).filter (·.is_current)).length = 2 := by
  decide

/-- C8 (amended): after `update_gameweek_status` the gameweeks flagged current
are exactly those whose [start_time, end_time] window contains the clock; hence
exactly one gameweek is current precisely when exactly one stored window
contains the clock, which need not hold for arbitrary windows. -/
theorem C8_current_flags_amended (now : Nat) (l : List Gw2) :
    (update_gameweek_status now l).map (·.is_current)
      = l.map (fun g => decide (g.start_time ≤ now ∧ now ≤ g.end_time)) := by
  have hfin : ∀ (l3 : List Gw2),
      (l3.map (fun g => if g.end_time < now then { g with is_finished := true } else g)).map
        (·.is_current) = l3.map (·.is_current) := by
    intro l3
    rw [List.map_map]
    refine List.map_congr_left (fun a _ => ?_)
    dsimp only [Function.comp]
    split <;> rfl
  have hnext : ∀ (m : Nat) (l3 : List Gw2),
      (l3.map (fun g => if g.gameweek_number == m then { g with is_next := true } else g)).map
        (·.is_current) = l3.map (·.is_current) := by
    intro m l3
    rw [List.map_map]
    refine List.map_congr_left (fun a _ => ?_)
    dsimp only [Function.comp]
    split <;> rfl
  have hcur : ((l.map (fun g => { g with is_current := false, is_next := false })).map
        (fun g => if g.start_time ≤ now ∧ now ≤ g.end_time then { g with is_current := true }
          else g)).map (·.is_current)
      = l.map (fun g => decide (g.start_time ≤ now ∧ now ≤ g.end_time)) := by
    rw [List.map_map, List.map_map]
    refine List.map_congr_left (fun a _ => ?_)
    dsimp only [Function.comp]
    split
    · next h => simp only [decide_eq_true_eq] at *; simp [h]
    · next h => simp [h]
  unfold update_gameweek_status
  dsimp only
  split
  · next m hm => rw [hfin, hnext, hcur]
  · next hm => rw [hfin, hcur]

/-- The cumulative total of a team, as read back from the table. -/
def totalPointsOf (s : DBState) (t : Nat) : Option Int :=
  (s.fantasy_teams.find? (fun ft => ft.fantasy_team_id == t)).map (·.total_points)

/-- The recorded points of a (team, gameweek) pair, as read back from the
table. -/
def ftgpPointsOf (s : DBState) (t g : Nat) : Option Int :=
  (s.ftgp.find? (fun r => r.fantasy_team_id == t && r.gameweek == g)).map (·.points)

/-- The (team id, league) projection of the `fantasy_teams` table; every phase
of finalization leaves it unchanged. -/
def idsLeagues (s : DBState) : List (Nat × Option Nat) :=
  s.fantasy_teams.map (fun ft => (ft.fantasy_team_id, ft.league_id))

/-- Lookup commutes with a row transformation that preserves the predicate. -/
theorem find?_map_comm {α : Type} (f : α → α) (p : α → Bool)
    (hp : ∀ a, p (f a) = p a) : ∀ (l : List α), (l.map f).find? p = (l.find? p).map f
  | [] => rfl
  | x :: xs => by
    rw [List.map_cons]
    by_cases hx : p x = true
    · rw [List.find?_cons_of_pos _ (by rw [hp]; exact hx), List.find?_cons_of_pos _ hx]
      rfl
    · rw [List.find?_cons_of_neg _ (by rw [hp]; simpa using hx),
        List.find?_cons_of_neg _ (by simpa using hx)]
      exact find?_map_comm f p hp xs

/-- The first row with a given id is the member itself when ids are unique. -/
theorem find?_eq_of_mem_of_nodup :
    ∀ (l : List FantasyTeam) (ft : FantasyTeam), ft ∈ l →
      (l.map (·.fantasy_team_id)).Nodup →
      l.find? (fun x => x.fantasy_team_id == ft.fantasy_team_id) = some ft
  | [], ft, hmem, _ => absurd hmem (List.not_mem_nil ft)
  | x :: xs, ft, hmem, hnd => by
    rw [List.map_cons] at hnd
    obtain ⟨h1, h2⟩ := List.nodup_cons.mp hnd
    rcases List.mem_cons.mp hmem with rfl | hmem2
    · exact List.find?_cons_of_pos _ (by simp)
    · have hne : x.fantasy_team_id ≠ ft.fantasy_team_id := by
        intro he
        exact h1 (he ▸ List.mem_map_of_mem (fun y => y.fantasy_team_id) hmem2)
      rw [List.find?_cons_of_neg _ (by simpa using hne)]
      exact find?_eq_of_mem_of_nodup xs ft hmem2 h2

/-- After `addTeamPoints t`, the row of team `t` is the old row with the
points added. -/
theorem find?_addTeamPoints_self (l : List FantasyTeam) (t : Nat) (pts : Int) :
    (addTeamPoints t pts l).find? (fun ft => ft.fantasy_team_id == t)
      = (l.find? (fun ft => ft.fantasy_team_id == t)).map
          (fun ft =>
            { ft with total_points := ft.total_points + pts, gameweek_points := pts }) := by
  unfold addTeamPoints
  rw [find?_map_comm]
  · cases hf : l.find? (fun ft => ft.fantasy_team_id == t) with
    | none => rfl
    | some ft2 =>
      have hp2 : (ft2.fantasy_team_id == t) = true := by
        have h3 := List.find?_some hf
        simpa using h3
      dsimp only [Option.map]
      rw [if_pos hp2]
  · intro a
    by_cases ha : (a.fantasy_team_id == t) = true
    · rw [if_pos ha]
    · rw [if_neg ha]

/-- The update `addTeamPoints t` leaves the looked-up row of any other team unchanged. -/
theorem find?_addTeamPoints_other (l : List FantasyTeam) (t t2 : Nat) (pts : Int)
    (hne : t2 ≠ t) :
    (addTeamPoints t pts l).find? (fun ft => ft.fantasy_team_id == t2)
      = l.find? (fun ft => ft.fantasy_team_id == t2) := by
  unfold addTeamPoints
  rw [find?_map_comm]
  · cases hf : l.find? (fun ft => ft.fantasy_team_id == t2) with
    | none => rfl
    | some ft2 =>
      have hp2 : (ft2.fantasy_team_id == t2) = true := by
        have h3 := List.find?_some hf
        simpa using h3
      have hp2n : (ft2.fantasy_team_id == t) = false := by
        have h4 : ft2.fantasy_team_id = t2 := by simpa using hp2
        simp [h4, hne]
      dsimp only [Option.map]
      rw [if_neg (by simp [hp2n])]
  · intro a
    by_cases ha : (a.fantasy_team_id == t) = true
    · rw [if_pos ha]
    · rw [if_neg ha]

/-- After upserting (t, g), the looked-up points of (t, g) are the upserted
ones. -/
theorem ftgpPointsOf_upsert_self (l : List FtgpRow) (t g : Nat) (pts : Int) :
    ((upsertFtgp t g pts l).find?
        (fun r => r.fantasy_team_id == t && r.gameweek == g)).map (·.points)
      = some pts := by
  unfold upsertFtgp
  by_cases hany : (l.any (fun r => r.fantasy_team_id == t && r.gameweek == g)) = true
  · rw [if_pos hany]
    rw [find?_map_comm]
    · have hs : (l.find? (fun r => r.fantasy_team_id == t && r.gameweek == g)).isSome := by
        rw [List.find?_isSome]
        rcases List.any_eq_true.mp hany with ⟨x, hx, hpx⟩
        exact ⟨x, hx, hpx⟩
      cases hf : l.find? (fun r => r.fantasy_team_id == t && r.gameweek == g) with
      | none => rw [hf] at hs; simp at hs
      | some r0 =>
        have hp : (r0.fantasy_team_id == t && r0.gameweek == g) = true := by
          have h3 := List.find?_some hf
          simpa using h3
        dsimp only [Option.map]
        rw [if_pos hp]
    · intro a
      by_cases ha : (a.fantasy_team_id == t && a.gameweek == g) = true
      · rw [if_pos ha]
      · rw [if_neg ha]
  · rw [if_neg hany, List.find?_append]
    have hnone : l.find? (fun r => r.fantasy_team_id == t && r.gameweek == g) = none := by
      rw [List.find?_eq_none]
      intro x hx hpx
      exact hany (List.any_eq_true.mpr ⟨x, hx, hpx⟩)
    rw [hnone]
    simp

/-- Upserting a different (team, gameweek) key leaves the lookup of (t2, g2)
unchanged. -/
theorem find?_upsert_other (l : List FtgpRow) (t g t2 g2 : Nat) (pts : Int)
    (hne : ¬(t2 = t ∧ g2 = g)) :
    (upsertFtgp t g pts l).find? (fun r => r.fantasy_team_id == t2 && r.gameweek == g2)
      = l.find? (fun r => r.fantasy_team_id == t2 && r.gameweek == g2) := by
  unfold upsertFtgp
  by_cases hany : (l.any (fun r => r.fantasy_team_id == t && r.gameweek == g)) = true
  · rw [if_pos hany]
    rw [find?_map_comm]
    · cases hf : l.find? (fun r => r.fantasy_team_id == t2 && r.gameweek == g2) with
      | none => rfl
      | some r0 =>
        have hp : (r0.fantasy_team_id == t2 && r0.gameweek == g2) = true := by
          have h3 := List.find?_some hf
          simpa using h3
        have h5 : r0.fantasy_team_id = t2 ∧ r0.gameweek = g2 := by simpa using hp
        have hcond : (r0.fantasy_team_id == t && r0.gameweek == g) = false := by
          rw [Bool.eq_false_iff]
          intro hcc
          have h6 : r0.fantasy_team_id = t ∧ r0.gameweek = g := by simpa using hcc
          exact hne ⟨h5.1 ▸ h6.1, h5.2 ▸ h6.2⟩
        dsimp only [Option.map]
        rw [if_neg (by simp [hcond])]
    · intro a
      by_cases ha : (a.fantasy_team_id == t && a.gameweek == g) = true
      · rw [if_pos ha]
      · rw [if_neg ha]
  · rw [if_neg hany, List.find?_append]
    have hnew : (([(⟨t, g, pts, none⟩ : FtgpRow)]).find?
          (fun r => r.fantasy_team_id == t2 && r.gameweek == g2)) = none := by
      rw [List.find?_eq_none]
      intro x hx hpx
      rcases List.mem_singleton.mp hx with rfl
      have h6 : t = t2 ∧ g = g2 := by simpa using hpx
      exact hne ⟨h6.1.symm, h6.2.symm⟩
    rw [hnew, Option.or_none]

/-- One team-loop iteration adds the computed points to that team's cumulative
total. -/
theorem processTeam_total_self (db : StaticDB) (g : Nat) (s : DBState) (tr : FantasyTeam) :
    totalPointsOf (processTeam db g s tr) tr.fantasy_team_id
      = (totalPointsOf s tr.fantasy_team_id).map
          (· + calculate_fantasy_team_points db tr.fantasy_team_id g) := by
  unfold processTeam totalPointsOf
  dsimp only
  rw [find?_addTeamPoints_self]
  cases s.fantasy_teams.find? (fun ft => ft.fantasy_team_id == tr.fantasy_team_id) with
  | none => rfl
  | some ft => rfl

/-- One team-loop iteration leaves other teams' cumulative totals unchanged. -/
theorem processTeam_total_other (db : StaticDB) (g : Nat) (s : DBState)
    (tr : FantasyTeam) (t2 : Nat) (hne : t2 ≠ tr.fantasy_team_id) :
    totalPointsOf (processTeam db g s tr) t2 = totalPointsOf s t2 := by
  unfold processTeam totalPointsOf
  dsimp only
  rw [find?_addTeamPoints_other _ _ _ _ hne]

/-- One team-loop iteration records the computed points for its (team,
gameweek) pair. -/
theorem processTeam_ftgp_self (db : StaticDB) (g : Nat) (s : DBState) (tr : FantasyTeam) :
    ftgpPointsOf (processTeam db g s tr) tr.fantasy_team_id g
      = some (calculate_fantasy_team_points db tr.fantasy_team_id g) := by
  unfold processTeam ftgpPointsOf
  dsimp only
  exact ftgpPointsOf_upsert_self _ _ _ _

/-- One team-loop iteration leaves other (team, gameweek) records unchanged. -/
theorem processTeam_ftgp_other (db : StaticDB) (g : Nat) (s : DBState)
    (tr : FantasyTeam) (t2 g2 : Nat) (hne : ¬(t2 = tr.fantasy_team_id ∧ g2 = g)) :
    ftgpPointsOf (processTeam db g s tr) t2 g2 = ftgpPointsOf s t2 g2 := by
  unfold processTeam ftgpPointsOf
  dsimp only
  rw [find?_upsert_other _ _ _ _ _ _ hne]

/-- The team loop leaves the observations of a team outside it unchanged. -/
theorem loop1_not_mem (db : StaticDB) (g : Nat) :
    ∀ (l : List FantasyTeam) (s : DBState) (t2 g2 : Nat),
      (∀ ft ∈ l, ft.fantasy_team_id ≠ t2) →
      totalPointsOf (l.foldl (processTeam db g) s) t2 = totalPointsOf s t2
      ∧ ftgpPointsOf (l.foldl (processTeam db g) s) t2 g2 = ftgpPointsOf s t2 g2
  | [], _, _, _, _ => ⟨rfl, rfl⟩
  | x :: xs, s, t2, g2, h => by
    rw [List.foldl_cons]
    have hx := h x (List.mem_cons_self x xs)
    obtain ⟨ih1, ih2⟩ := loop1_not_mem db g xs (processTeam db g s x) t2 g2
      (fun ft hft => h ft (List.mem_cons_of_mem x hft))
    refine ⟨?_, ?_⟩
    · rw [ih1, processTeam_total_other db g s x t2 (fun he => hx he.symm)]
    · rw [ih2, processTeam_ftgp_other db g s x t2 g2 (fun hand => hx hand.1.symm)]

/-- Running the team loop over a duplicate-free team list adds each listed
team's computed points once and records them for the gameweek. -/
theorem loop1_mem (db : StaticDB) (g : Nat) :
    ∀ (l : List FantasyTeam) (s : DBState) (ft : FantasyTeam), ft ∈ l →
      (l.map (·.fantasy_team_id)).Nodup →
      totalPointsOf (l.foldl (processTeam db g) s) ft.fantasy_team_id
        = (totalPointsOf s ft.fantasy_team_id).map
            (· + calculate_fantasy_team_points db ft.fantasy_team_id g)
      ∧ ftgpPointsOf (l.foldl (processTeam db g) s) ft.fantasy_team_id g
        = some (calculate_fantasy_team_points db ft.fantasy_team_id g)
  | [], _, ft, hmem, _ => absurd hmem (List.not_mem_nil ft)
  | x :: xs, s, ft, hmem, hnd => by
    rw [List.map_cons] at hnd
    obtain ⟨h1, h2⟩ := List.nodup_cons.mp hnd
    rw [List.foldl_cons]
    rcases List.mem_cons.mp hmem with rfl | hmem2
    · have hrest : ∀ ft2 ∈ xs, ft2.fantasy_team_id ≠ ft.fantasy_team_id := by
        intro ft2 hft2 he
        exact h1 (he ▸ List.mem_map_of_mem (fun y => y.fantasy_team_id) hft2)
      obtain ⟨p1, p2⟩ :=
        loop1_not_mem db g xs (processTeam db g s ft) ft.fantasy_team_id g hrest
      refine ⟨?_, ?_⟩
      · rw [p1, processTeam_total_self]
      · rw [p2, processTeam_ftgp_self]
    · have hne : ft.fantasy_team_id ≠ x.fantasy_team_id := fun he =>
        h1 (he ▸ List.mem_map_of_mem (fun y => y.fantasy_team_id) hmem2)
      obtain ⟨p1, p2⟩ := loop1_mem db g xs (processTeam db g s x) ft hmem2 h2
      refine ⟨?_, ?_⟩
      · rw [p1, processTeam_total_other db g s x ft.fantasy_team_id hne]
      · rw [p2]

/-- Writing persistent team ranks does not change any team's looked-up
cumulative total. -/
theorem find?_applyTeamRanks_total (ranked : List (Nat × Nat)) (l : List FantasyTeam)
    (t : Nat) :
    ((applyTeamRanks ranked l).find? (fun ft => ft.fantasy_team_id == t)).map
        (·.total_points)
      = (l.find? (fun ft => ft.fantasy_team_id == t)).map (·.total_points) := by
  unfold applyTeamRanks
  rw [find?_map_comm]
  · cases l.find? (fun ft => ft.fantasy_team_id == t) with
    | none => rfl
    | some ft =>
      dsimp only [Option.map]
      cases ranked.find? (fun p => p.1 == ft.fantasy_team_id) with
      | none => rfl
      | some p => rfl
  · intro a
    dsimp only
    cases ranked.find? (fun p => p.1 == a.fantasy_team_id) with
    | none => rfl
    | some p => rfl

/-- Writing gameweek ranks does not change any record's looked-up points. -/
theorem find?_applyGwRanks_points (g0 : Nat) (ranked : List (Nat × Nat))
    (l : List FtgpRow) (t2 g2 : Nat) :
    ((applyGwRanks g0 ranked l).find?
        (fun r => r.fantasy_team_id == t2 && r.gameweek == g2)).map (·.points)
      = (l.find? (fun r => r.fantasy_team_id == t2 && r.gameweek == g2)).map
          (·.points) := by
  unfold applyGwRanks
  rw [find?_map_comm]
  · cases l.find? (fun r => r.fantasy_team_id == t2 && r.gameweek == g2) with
    | none => rfl
    | some r0 =>
      dsimp only [Option.map]
      by_cases hg : (r0.gameweek == g0) = true
      · rw [if_pos hg]
        cases ranked.find? (fun p => p.1 == r0.fantasy_team_id) with
        | none => rfl
        | some p => rfl
      · rw [if_neg hg]
  · intro a
    dsimp only
    by_cases hg : (a.gameweek == g0) = true
    · rw [if_pos hg]
      cases ranked.find? (fun p => p.1 == a.fantasy_team_id) with
      | none => rfl
      | some p => rfl
    · rw [if_neg hg]

/-- The per-league ranking pass preserves every cumulative total. -/
theorem totalPointsOf_rankLeague (g L : Nat) (s : DBState) (t : Nat) :
    totalPointsOf (rankLeague g s L) t = totalPointsOf s t := by
  unfold rankLeague totalPointsOf
  dsimp only
  rw [find?_applyTeamRanks_total]

/-- The per-league ranking pass preserves every record's points. -/
theorem ftgpPointsOf_rankLeague (g L : Nat) (s : DBState) (t2 g2 : Nat) :
    ftgpPointsOf (rankLeague g s L) t2 g2 = ftgpPointsOf s t2 g2 := by
  unfold rankLeague ftgpPointsOf
  dsimp only
  rw [find?_applyGwRanks_points]

/-- The whole ranking loop preserves totals and record points. -/
theorem obs_rankFold (g : Nat) :
    ∀ (Ls : List Nat) (s : DBState) (t2 g2 : Nat),
      totalPointsOf (Ls.foldl (rankLeague g) s) t2 = totalPointsOf s t2
      ∧ ftgpPointsOf (Ls.foldl (rankLeague g) s) t2 g2 = ftgpPointsOf s t2 g2
  | [], _, _, _ => ⟨rfl, rfl⟩
  | L :: Ls, s, t2, g2 => by
    rw [List.foldl_cons]
    obtain ⟨i1, i2⟩ := obs_rankFold g Ls (rankLeague g s L) t2 g2
    exact ⟨by rw [i1, totalPointsOf_rankLeague],
      by rw [i2, ftgpPointsOf_rankLeague]⟩

/-- A team-loop iteration does not change team ids or league assignments. -/
theorem idsLeagues_processTeam (db : StaticDB) (g : Nat) (s : DBState)
    (tr : FantasyTeam) : idsLeagues (processTeam db g s tr) = idsLeagues s := by
  unfold processTeam idsLeagues addTeamPoints
  dsimp only
  rw [List.map_map]
  refine List.map_congr_left (fun a _ => ?_)
  dsimp only [Function.comp]
  split <;> rfl

/-- The team loop does not change team ids or league assignments. -/
theorem idsLeagues_loop1 (db : StaticDB) (g : Nat) :
    ∀ (l : List FantasyTeam) (s : DBState),
      idsLeagues (l.foldl (processTeam db g) s) = idsLeagues s
  | [], _ => rfl
  | x :: xs, s => by
    rw [List.foldl_cons, idsLeagues_loop1 db g xs, idsLeagues_processTeam]

/-- Writing persistent team ranks does not change ids or leagues. -/
theorem idsLeagues_applyTeamRanks (ranked : List (Nat × Nat)) (l : List FantasyTeam) :
    (applyTeamRanks ranked l).map (fun ft => (ft.fantasy_team_id, ft.league_id))
      = l.map (fun ft => (ft.fantasy_team_id, ft.league_id)) := by
  unfold applyTeamRanks
  rw [List.map_map]
  refine List.map_congr_left (fun a _ => ?_)
  dsimp only [Function.comp]
  cases ranked.find? (fun p => p.1 == a.fantasy_team_id) with
  | none => rfl
  | some p => rfl

/-- A league-ranking iteration does not change team ids or league
assignments. -/
theorem idsLeagues_rankLeague (g : Nat) (s : DBState) (L : Nat) :
    idsLeagues (rankLeague g s L) = idsLeagues s := by
  unfold rankLeague idsLeagues
  dsimp only
  exact idsLeagues_applyTeamRanks _ _

/-- The ranking loop does not change team ids or league assignments. -/
theorem idsLeagues_rankFold (g : Nat) :
    ∀ (Ls : List Nat) (s : DBState),
      idsLeagues (Ls.foldl (rankLeague g) s) = idsLeagues s
  | [], _ => rfl
  | L :: Ls, s => by
    rw [List.foldl_cons, idsLeagues_rankFold g Ls, idsLeagues_rankLeague]

/-- Two team lists with equal (id, league) projections have league-equal
lookups. -/
theorem find?_league_congr :
    ∀ (l1 l2 : List FantasyTeam),
      l1.map (fun ft => (ft.fantasy_team_id, ft.league_id))
        = l2.map (fun ft => (ft.fantasy_team_id, ft.league_id)) →
      ∀ t, (l1.find? (fun x => x.fantasy_team_id == t)).map (·.league_id)
        = (l2.find? (fun x => x.fantasy_team_id == t)).map (·.league_id)
  | [], [], _, _ => rfl
  | [], y :: ys, h, t => by simp at h
  | x :: xs, [], h, t => by simp at h
  | x :: xs, y :: ys, h, t => by
    rw [List.map_cons, List.map_cons, List.cons.injEq] at h
    obtain ⟨hhead, htail⟩ := h
    have hid : x.fantasy_team_id = y.fantasy_team_id := congrArg Prod.fst hhead
    have hlg : x.league_id = y.league_id := congrArg Prod.snd hhead
    by_cases hx : (x.fantasy_team_id == t) = true
    · rw [@List.find?_cons_of_pos _ (fun z => z.fantasy_team_id == t) x xs hx,
        @List.find?_cons_of_pos _ (fun z => z.fantasy_team_id == t) y ys
          (by dsimp only; rw [← hid]; exact hx)]
      simp [hlg]
    · rw [@List.find?_cons_of_neg _ (fun z => z.fantasy_team_id == t) x xs
          (by simpa using hx),
        @List.find?_cons_of_neg _ (fun z => z.fantasy_team_id == t) y ys
          (by dsimp only; rw [← hid]; simpa using hx)]
      exact find?_league_congr xs ys htail t

/-- The ranking loop preserves every cumulative total. -/
theorem totalPointsOf_loopLeagues (g : Nat) (s : DBState) (t : Nat) :
    totalPointsOf (loopLeagues g s) t = totalPointsOf s t := by
  unfold loopLeagues
  exact (obs_rankFold g (distinctLeagues s) s t 0).1

/-- The ranking loop preserves every record's points. -/
theorem ftgpPointsOf_loopLeagues (g : Nat) (s : DBState) (t g2 : Nat) :
    ftgpPointsOf (loopLeagues g s) t g2 = ftgpPointsOf s t g2 := by
  unfold loopLeagues
  exact (obs_rankFold g (distinctLeagues s) s t g2).2

/-- The ranking loop preserves ids and leagues. -/
theorem idsLeagues_loopLeagues (g : Nat) (s : DBState) :
    idsLeagues (loopLeagues g s) = idsLeagues s := by
  unfold loopLeagues
  exact idsLeagues_rankFold g _ s

/-- The team loop preserves ids and leagues. -/
theorem idsLeagues_loopTeams (db : StaticDB) (g : Nat) (s : DBState) :
    idsLeagues (loopTeams db g s) = idsLeagues s := by
  unfold loopTeams
  exact idsLeagues_loop1 db g _ s

/-- After the team loop, a league-assigned team's observations. -/
theorem loopTeams_obs (db : StaticDB) (g : Nat) (s : DBState) (ft : FantasyTeam)
    (hmem : ft ∈ s.fantasy_teams) (hlg : ft.league_id.isSome = true)
    (hnd : (s.fantasy_teams.map (·.fantasy_team_id)).Nodup) :
    totalPointsOf (loopTeams db g s) ft.fantasy_team_id
      = (totalPointsOf s ft.fantasy_team_id).map
          (· + calculate_fantasy_team_points db ft.fantasy_team_id g)
    ∧ ftgpPointsOf (loopTeams db g s) ft.fantasy_team_id g
      = some (calculate_fantasy_team_points db ft.fantasy_team_id g) := by
  unfold loopTeams
  exact loop1_mem db g _ s ft (List.mem_filter.mpr ⟨hmem, by simpa using hlg⟩)
    (List.Nodup.sublist (List.Sublist.map _ (List.filter_sublist s.fantasy_teams)) hnd)

/-- Marking the gameweek finalized does not touch team totals. -/
theorem totalPointsOf_finalizeCore (db : StaticDB) (g : Nat) (s : DBState) (t : Nat) :
    totalPointsOf (finalizeCore db g s) t
      = totalPointsOf (loopLeagues g (loopTeams db g s)) t := rfl

/-- Marking the gameweek finalized does not touch the points records. -/
theorem ftgpPointsOf_finalizeCore (db : StaticDB) (g : Nat) (s : DBState) (t g2 : Nat) :
    ftgpPointsOf (finalizeCore db g s) t g2
      = ftgpPointsOf (loopLeagues g (loopTeams db g s)) t g2 := rfl

/-- Marking the gameweek finalized does not touch ids or leagues. -/
theorem idsLeagues_finalizeCore (db : StaticDB) (g : Nat) (s : DBState) :
    idsLeagues (finalizeCore db g s) = idsLeagues (loopLeagues g (loopTeams db g s)) := rfl

/-- One successful finalization run: the team's cumulative total receives the
gameweek's computed points once, the (team, gameweek) record holds those
points, and the (id, league) projection of `fantasy_teams` is unchanged. -/
theorem finalize_obs (db : StaticDB) (g : Nat) (s s1 : DBState) (ft : FantasyTeam)
    (hmem : ft ∈ s.fantasy_teams) (hlg : ft.league_id.isSome = true)
    (hnd : (s.fantasy_teams.map (·.fantasy_team_id)).Nodup)
    (h1 : finalize_gameweek db s g = Except.ok s1) :
    totalPointsOf s1 ft.fantasy_team_id
      = some (ft.total_points + calculate_fantasy_team_points db ft.fantasy_team_id g)
    ∧ ftgpPointsOf s1 ft.fantasy_team_id g
      = some (calculate_fantasy_team_points db ft.fantasy_team_id g)
    ∧ idsLeagues s1 = idsLeagues s := by
  unfold finalize_gameweek at h1
  by_cases hany : (s.gameweeks.any (fun gw => gw.gameweek_number == g)) = true
  · rw [if_pos hany] at h1
    have hs1 : s1 = finalizeCore db g s := (Except.ok.inj h1).symm
    subst hs1
    obtain ⟨q1, q2⟩ := loopTeams_obs db g s ft hmem hlg hnd
    have hbase : totalPointsOf s ft.fantasy_team_id = some ft.total_points := by
      unfold totalPointsOf
      rw [find?_eq_of_mem_of_nodup s.fantasy_teams ft hmem hnd]
      rfl
    refine ⟨?_, ?_, ?_⟩
    · rw [totalPointsOf_finalizeCore, totalPointsOf_loopLeagues, q1, hbase]
      rfl
    · rw [ftgpPointsOf_finalizeCore, ftgpPointsOf_loopLeagues, q2]
    · rw [idsLeagues_finalizeCore, idsLeagues_loopLeagues, idsLeagues_loopTeams]
  · rw [if_neg hany] at h1
    exact absurd h1 (by simp)

/-- C3: re-running `finalize_gameweek` on the same gameweek adds the computed
points to the cumulative total a second time (additive increment, not a
recompute), so after two runs the total exceeds the correct value by the
gameweek's points, while the per-(team, gameweek) record is merely overwritten
with the same value. -/
theorem C3_refinalize_double_counts (db : StaticDB) (s s1 s2 : DBState) (g : Nat)
    (ft : FantasyTeam) (hmem : ft ∈ s.fantasy_teams)
    (hlg : ft.league_id.isSome = true)
    (hnd : (s.fantasy_teams.map (·.fantasy_team_id)).Nodup)
    (h1 : finalize_gameweek db s g = Except.ok s1)
    (h2 : finalize_gameweek db s1 g = Except.ok s2) :
    totalPointsOf s1 ft.fantasy_team_id
      = some (ft.total_points + calculate_fantasy_team_points db ft.fantasy_team_id g)
    ∧ totalPointsOf s2 ft.fantasy_team_id
      = some (ft.total_points + calculate_fantasy_team_points db ft.fantasy_team_id g
          + calculate_fantasy_team_points db ft.fantasy_team_id g)
    ∧ ftgpPointsOf s1 ft.fantasy_team_id g
      = some (calculate_fantasy_team_points db ft.fantasy_team_id g)
    ∧ ftgpPointsOf s2 ft.fantasy_team_id g = ftgpPointsOf s1 ft.fantasy_team_id g := by
  obtain ⟨e1, e2, e3⟩ := finalize_obs db g s s1 ft hmem hlg hnd h1
  have hids : s1.fantasy_teams.map (·.fantasy_team_id)
      = s.fantasy_teams.map (·.fantasy_team_id) := by
    have h4 := congrArg (List.map Prod.fst) e3
    unfold idsLeagues at h4
    simpa [List.map_map, Function.comp] using h4
  have hnd1 : (s1.fantasy_teams.map (·.fantasy_team_id)).Nodup := by
    rw [hids]; exact hnd
  cases hf1 : s1.fantasy_teams.find? (fun x => x.fantasy_team_id == ft.fantasy_team_id) with
  | none =>
    unfold totalPointsOf at e1
    rw [hf1] at e1
    exact absurd e1 (by simp)
  | some ft1 =>
    have hmem1 : ft1 ∈ s1.fantasy_teams := List.mem_of_find?_eq_some hf1
    have hid1 : ft1.fantasy_team_id = ft.fantasy_team_id := by
      have h5 := List.find?_some hf1
      simpa using h5
    have htot1 : ft1.total_points
        = ft.total_points + calculate_fantasy_team_points db ft.fantasy_team_id g := by
      unfold totalPointsOf at e1
      rw [hf1] at e1
      simpa using e1
    have hlg1 : ft1.league_id = ft.league_id := by
      have h5 := find?_league_congr s1.fantasy_teams s.fantasy_teams
        (by unfold idsLeagues at e3; exact e3) ft.fantasy_team_id
      rw [hf1, find?_eq_of_mem_of_nodup s.fantasy_teams ft hmem hnd] at h5
      simpa using h5
    obtain ⟨f1, f2, _⟩ := finalize_obs db g s1 s2 ft1 hmem1
      (by rw [hlg1]; exact hlg) hnd1 h2
    rw [hid1] at f1 f2
    refine ⟨e1, ?_, e2, ?_⟩
    · rw [f1, htot1]
    · rw [f2, e2]

/-- Static tables for the C3 witness: one team (id 1) with one starter
(player 1) who scored 4 points in 90 minutes. -/
def c3db : StaticDB :=
  { rosters := [⟨1, 1, true, false, false⟩],
    players := [⟨1, "MID"⟩],
    gameweek_scores := [⟨1, 1, 4, 90⟩] }

/-- Mutable state for the C3 witness: the team starts with 10 cumulative
points; gameweek 1 exists and is active. -/
def c3state : DBState :=
  { fantasy_teams := [⟨1, some 1, 10, 0, 1⟩], ftgp := [],
    gameweeks := [⟨1, 0, 5, "active"⟩] }

/-- The state after finalizing gameweek 1 once. -/
def c3s1 : DBState := applyFinalize c3db c3state 1

/-- The state after finalizing gameweek 1 twice. -/
def c3s2 : DBState := applyFinalize c3db c3s1 1

/-- Witness for C3 at a concrete input. -/
theorem C3_refinalize_double_counts_witness :
    totalPointsOf c3s1 1
      = some ((10 : Int) + calculate_fantasy_team_points c3db 1 1)
    ∧ totalPointsOf c3s2 1
      = some ((10 : Int) + calculate_fantasy_team_points c3db 1 1
          + calculate_fantasy_team_points c3db 1 1)
    ∧ ftgpPointsOf c3s1 1 1 = some (calculate_fantasy_team_points c3db 1 1)
    ∧ ftgpPointsOf c3s2 1 1 = ftgpPointsOf c3s1 1 1 :=
  C3_refinalize_double_counts c3db c3state c3s1 c3s2 1 ⟨1, some 1, 10, 0, 1⟩
    (by decide) (by decide) (by decide) (by rfl) (by rfl)

/-- The per-row effect of the rank update: write the row's rank when the row's
team appears among the ranked pairs. -/
def rankAssignment (ranked : List (Nat × Nat)) (r : FtgpRow) : FtgpRow :=
  match ranked.find? (fun p => p.1 == r.fantasy_team_id) with
  | some p => { r with rank_in_league := some p.2 }
  | none => r

/-- The update `applyGwRanks` is the row-wise rank update on rows of the gameweek. -/
theorem applyGwRanks_eq (g : Nat) (ranked : List (Nat × Nat)) (l : List FtgpRow) :
    applyGwRanks g ranked l
      = l.map (fun r => if r.gameweek == g then rankAssignment ranked r else r) := rfl

/-- The function `rankAssignment` never changes the team, the gameweek or the points. -/
theorem rankAssignment_fields (ranked : List (Nat × Nat)) (r : FtgpRow) :
    (rankAssignment ranked r).fantasy_team_id = r.fantasy_team_id
    ∧ (rankAssignment ranked r).gameweek = r.gameweek
    ∧ (rankAssignment ranked r).points = r.points := by
  unfold rankAssignment
  cases ranked.find? (fun p => p.1 == r.fantasy_team_id) with
  | none => exact ⟨rfl, rfl, rfl⟩
  | some p => exact ⟨rfl, rfl, rfl⟩

/-- Filtering commutes with a row transformation that preserves the
predicate. -/
theorem filter_map_comm {α : Type} (f : α → α) (p : α → Bool)
    (hp : ∀ a, p (f a) = p a) : ∀ (l : List α), (l.map f).filter p = (l.filter p).map f
  | [] => rfl
  | x :: xs => by
    rw [List.map_cons, List.filter_cons, List.filter_cons, hp]
    by_cases hx : p x = true
    · rw [if_pos hx, if_pos hx, List.map_cons, filter_map_comm f p hp xs]
    · rw [if_neg hx, if_neg hx, filter_map_comm f p hp xs]

/-- The (team, gameweek) key projection of the points table. -/
def ftgpKeys (l : List FtgpRow) : List (Nat × Nat) :=
  l.map (fun r => (r.fantasy_team_id, r.gameweek))

/-- Upserting preserves duplicate-freedom of the (team, gameweek) keys. -/
theorem ftgpKeys_nodup_upsert (l : List FtgpRow) (t g : Nat) (pts : Int)
    (h : (ftgpKeys l).Nodup) : (ftgpKeys (upsertFtgp t g pts l)).Nodup := by
  unfold upsertFtgp
  by_cases hany : (l.any (fun r => r.fantasy_team_id == t && r.gameweek == g)) = true
  · rw [if_pos hany]
    have he : ftgpKeys (l.map (fun r =>
        if r.fantasy_team_id == t && r.gameweek == g then { r with points := pts } else r))
        = ftgpKeys l := by
      unfold ftgpKeys
      rw [List.map_map]
      refine List.map_congr_left (fun a _ => ?_)
      dsimp only [Function.comp]
      split <;> rfl
    rw [he]
    exact h
  · rw [if_neg hany]
    unfold ftgpKeys
    rw [List.map_append]
    rw [List.nodup_append]
    refine ⟨h, List.nodup_singleton _, ?_⟩
    intro a ha hb
    rcases List.mem_singleton.mp hb with rfl
    rcases List.mem_map.mp ha with ⟨r, hr, hkey⟩
    have hr2 : (r.fantasy_team_id == t && r.gameweek == g) = true := by
      have h5 : r.fantasy_team_id = t ∧ r.gameweek = g := by
        constructor
        · exact congrArg Prod.fst hkey
        · exact congrArg Prod.snd hkey
      simp [h5.1, h5.2]
    exact hany (List.any_eq_true.mpr ⟨r, hr, hr2⟩)

/-- A team-loop iteration preserves duplicate-freedom of the keys. -/
theorem ftgpKeys_nodup_processTeam (db : StaticDB) (g : Nat) (s : DBState)
    (tr : FantasyTeam) (h : (ftgpKeys s.ftgp).Nodup) :
    (ftgpKeys (processTeam db g s tr).ftgp).Nodup := by
  unfold processTeam
  exact ftgpKeys_nodup_upsert _ _ _ _ h

/-- The whole team loop preserves duplicate-freedom of the keys. -/
theorem ftgpKeys_nodup_loop1 (db : StaticDB) (g : Nat) :
    ∀ (l : List FantasyTeam) (s : DBState), (ftgpKeys s.ftgp).Nodup →
      (ftgpKeys ((l.foldl (processTeam db g) s)).ftgp).Nodup
  | [], _, h => h
  | x :: xs, s, h => by
    rw [List.foldl_cons]
    exact ftgpKeys_nodup_loop1 db g xs _ (ftgpKeys_nodup_processTeam db g s x h)

/-- Rank writing preserves the key projection exactly. -/
theorem ftgpKeys_applyGwRanks (g : Nat) (ranked : List (Nat × Nat)) (l : List FtgpRow) :
    ftgpKeys (applyGwRanks g ranked l) = ftgpKeys l := by
  rw [applyGwRanks_eq]
  unfold ftgpKeys
  rw [List.map_map]
  refine List.map_congr_left (fun a _ => ?_)
  dsimp only [Function.comp]
  split
  · rw [(rankAssignment_fields ranked a).1, (rankAssignment_fields ranked a).2.1]
  · rfl

/-- A league-ranking iteration preserves the key projection. -/
theorem ftgpKeys_rankLeague (g : Nat) (u : DBState) (M : Nat) :
    ftgpKeys (rankLeague g u M).ftgp = ftgpKeys u.ftgp := by
  unfold rankLeague
  dsimp only
  exact ftgpKeys_applyGwRanks g _ u.ftgp

/-- The ranking loop preserves the key projection. -/
theorem ftgpKeys_rankFold (g : Nat) :
    ∀ (Ms : List Nat) (u : DBState),
      ftgpKeys ((Ms.foldl (rankLeague g) u)).ftgp = ftgpKeys u.ftgp
  | [], _ => rfl
  | M :: Ms, u => by
    rw [List.foldl_cons, ftgpKeys_rankFold g Ms, ftgpKeys_rankLeague]

/-- The lookup `teamLeague` depends only on the (id, league) projection. -/
theorem teamLeague_congr (s s2 : DBState) (h : idsLeagues s = idsLeagues s2)
    (t : Nat) : teamLeague s t = teamLeague s2 t := by
  have hmap := find?_league_congr s.fantasy_teams s2.fantasy_teams
    (by unfold idsLeagues at h; exact h) t
  unfold teamLeague
  cases hf1 : s.fantasy_teams.find? (fun ft => ft.fantasy_team_id == t) with
  | none =>
    cases hf2 : s2.fantasy_teams.find? (fun ft => ft.fantasy_team_id == t) with
    | none => rfl
    | some y => rw [hf1, hf2] at hmap; exact absurd hmap (by simp)
  | some x =>
    cases hf2 : s2.fantasy_teams.find? (fun ft => ft.fantasy_team_id == t) with
    | none => rw [hf1, hf2] at hmap; exact absurd hmap (by simp)
    | some y =>
      rw [hf1, hf2] at hmap
      simpa using hmap

/-- The query `distinctLeagues` depends only on the (id, league) projection. -/
theorem distinctLeagues_congr (s s2 : DBState) (h : idsLeagues s = idsLeagues s2) :
    distinctLeagues s = distinctLeagues s2 := by
  unfold distinctLeagues
  have h1 : s.fantasy_teams.filterMap (·.league_id)
      = (idsLeagues s).filterMap Prod.snd := by
    unfold idsLeagues
    rw [List.filterMap_map]
    rfl
  have h2 : s2.fantasy_teams.filterMap (·.league_id)
      = (idsLeagues s2).filterMap Prod.snd := by
    unfold idsLeagues
    rw [List.filterMap_map]
    rfl
  rw [h1, h2, h]

/-- When no listed element carries the id, the rank pairs contain no entry for
it. -/
theorem assignRanks_find?_none {α : Type} (idOf : α → Nat) (t : Nat) :
    ∀ (k : Nat) (l : List α), (∀ e ∈ l, idOf e ≠ t) →
      (assignRanks idOf k l).find? (fun p => p.1 == t) = none
  | _, [], _ => rfl
  | k, x :: xs, h => by
    unfold assignRanks
    rw [List.find?_cons_of_neg _ (by simpa using h x (List.mem_cons_self x xs))]
    exact assignRanks_find?_none idOf t (k + 1) xs
      (fun e he => h e (List.mem_cons_of_mem x he))

/-- With duplicate-free ids, the rank pair of the j-th element is its 1-based
position (offset by the starting rank). -/
theorem assignRanks_find?_get {α : Type} (idOf : α → Nat) :
    ∀ (l : List α) (k j : Nat) (hj : j < l.length), (l.map idOf).Nodup →
      (assignRanks idOf k l).find? (fun p => p.1 == idOf (l.get ⟨j, hj⟩))
        = some (idOf (l.get ⟨j, hj⟩), k + j)
  | [], _, j, hj, _ => absurd hj (by simp)
  | x :: xs, k, 0, hj, hnd => by
    unfold assignRanks
    rw [List.find?_cons_of_pos _ (by simp)]
    simp
  | x :: xs, k, j + 1, hj, hnd => by
    rw [List.map_cons] at hnd
    obtain ⟨h1, h2⟩ := List.nodup_cons.mp hnd
    unfold assignRanks
    have hj2 : j < xs.length := by simpa using hj
    have hget : (x :: xs).get ⟨j + 1, hj⟩ = xs.get ⟨j, hj2⟩ := rfl
    rw [hget]
    have hne : idOf x ≠ idOf (xs.get ⟨j, hj2⟩) := by
      intro he
      exact h1 (he ▸ List.mem_map_of_mem idOf (xs.get_mem j hj2))
    rw [List.find?_cons_of_neg _ (by simpa using hne)]
    have hrec := assignRanks_find?_get idOf xs (k + 1) j hj2 h2
    rw [hrec]
    have harith : k + 1 + j = k + (j + 1) := by omega
    rw [harith]

/-- Filtering rows of one gameweek from a key-duplicate-free table yields
duplicate-free team ids. -/
theorem filter_teams_nodup (g : Nat) (p : FtgpRow → Bool)
    (hpg : ∀ r, p r = true → r.gameweek = g) :
    ∀ (l : List FtgpRow), (ftgpKeys l).Nodup →
      ((l.filter p).map (·.fantasy_team_id)).Nodup
  | [], _ => by simp
  | x :: xs, hnd => by
    unfold ftgpKeys at hnd
    rw [List.map_cons] at hnd
    obtain ⟨h1, h2⟩ := List.nodup_cons.mp hnd
    rw [List.filter_cons]
    by_cases hx : p x = true
    · rw [if_pos hx, List.map_cons, List.nodup_cons]
      constructor
      · intro hmem
        rcases List.mem_map.mp hmem with ⟨y, hy, hyt⟩
        have hy2 := List.mem_of_mem_filter hy
        have hpy := List.of_mem_filter hy
        have hkey : (y.fantasy_team_id, y.gameweek) = (x.fantasy_team_id, x.gameweek) := by
          rw [hyt, hpg y hpy, hpg x hx]
        exact h1 (hkey ▸ List.mem_map_of_mem
          (fun r => (r.fantasy_team_id, r.gameweek)) hy2)
      · exact filter_teams_nodup g p hpg xs h2
    · rw [if_neg hx]
      exact filter_teams_nodup g p hpg xs h2

/-- Every row the league-entry query returns belongs to the gameweek. -/
theorem gwEntries_gameweek (u : DBState) (g L : Nat) :
    ∀ r, (fun r : FtgpRow =>
      r.gameweek == g && teamLeague u r.fantasy_team_id == some L) r = true →
      r.gameweek = g := by
  intro r hr
  have h2 := (Bool.and_eq_true _ _).mp hr
  simpa using h2.1

/-- The teams of a league's gameweek rows are duplicate-free when the table
keys are. -/
theorem gwEntries_teams_nodup (u : DBState) (g L : Nat)
    (h : (ftgpKeys u.ftgp).Nodup) :
    ((gwEntries u g L).map (·.fantasy_team_id)).Nodup := by
  unfold gwEntries
  exact filter_teams_nodup g _ (gwEntries_gameweek u g L) u.ftgp h

/-- Membership in the league-entry query result implies the row predicate. -/
theorem mem_gwEntries (u : DBState) (g L : Nat) (r : FtgpRow)
    (hr : r ∈ gwEntries u g L) :
    (r.gameweek == g && teamLeague u r.fantasy_team_id == some L) = true := by
  unfold gwEntries at hr
  exact (List.mem_filter.mp hr).2

/-- The league-entry query after one league-ranking iteration, reduced to a
filter of the rank-updated table (team-league assignments unchanged). -/
theorem gwEntries_rankLeague_eq (g : Nat) (u : DBState) (M L : Nat) :
    gwEntries (rankLeague g u M) g L
      = (applyGwRanks g (rankedPairs g u M) u.ftgp).filter
          (fun r => r.gameweek == g && teamLeague u r.fantasy_team_id == some L) := by
  unfold gwEntries
  have hids : idsLeagues (rankLeague g u M) = idsLeagues u := idsLeagues_rankLeague g u M
  have hftgp : (rankLeague g u M).ftgp = applyGwRanks g (rankedPairs g u M) u.ftgp := rfl
  rw [hftgp]
  refine List.filter_congr (fun r _ => ?_)
  rw [teamLeague_congr _ u hids]

/-- The league-entry query after one league-ranking iteration is the row-wise
rank update of the previous query result. -/
theorem gwEntries_rankLeague_filter (g : Nat) (u : DBState) (M L : Nat) :
    gwEntries (rankLeague g u M) g L
      = (gwEntries u g L).map
          (fun r => if r.gameweek == g then rankAssignment (rankedPairs g u M) r
            else r) := by
  rw [gwEntries_rankLeague_eq, applyGwRanks_eq, filter_map_comm]
  · rfl
  · intro a
    dsimp only
    by_cases hg : (a.gameweek == g) = true
    · rw [if_pos hg, (rankAssignment_fields (rankedPairs g u M) a).1,
        (rankAssignment_fields (rankedPairs g u M) a).2.1]
    · rw [if_neg hg]

/-- Ranking a different league does not touch this league's gameweek rows. -/
theorem gwEntries_rankLeague_ne (g : Nat) (u : DBState) (M L : Nat) (hne : M ≠ L) :
    gwEntries (rankLeague g u M) g L = gwEntries u g L := by
  rw [gwEntries_rankLeague_filter]
  have hid : ∀ r ∈ gwEntries u g L,
      (if r.gameweek == g then rankAssignment (rankedPairs g u M) r else r) = r := by
    intro r hr
    have hpL : (r.gameweek == g && teamLeague u r.fantasy_team_id == some L) = true :=
      mem_gwEntries u g L r hr
    have hgL := (Bool.and_eq_true _ _).mp hpL
    rw [if_pos hgL.1]
    have hnone : (rankedPairs g u M).find?
        (fun p => p.1 == r.fantasy_team_id) = none := by
      unfold rankedPairs
      apply assignRanks_find?_none
      intro e he hteam
      have he2 : e ∈ gwEntries u g M := by
        unfold sortedEntries at he
        simpa using he
      have hpM : (e.gameweek == g && teamLeague u e.fantasy_team_id == some M) = true :=
        mem_gwEntries u g M e he2
      have hM : teamLeague u e.fantasy_team_id = some M := by
        have h6 := (Bool.and_eq_true _ _).mp hpM
        simpa using h6.2
      have hL2 : teamLeague u r.fantasy_team_id = some L := by
        simpa using hgL.2
      rw [hteam, hL2] at hM
      exact hne (Option.some.inj hM).symm
    unfold rankAssignment
    rw [hnone]
  rw [List.map_congr_left hid]
  exact List.map_id' _

/-- Ranking this league rewrites each of its gameweek rows with its assigned
rank. -/
theorem gwEntries_rankLeague_self (g : Nat) (u : DBState) (L : Nat) :
    gwEntries (rankLeague g u L) g L
      = (gwEntries u g L).map (rankAssignment (rankedPairs g u L)) := by
  rw [gwEntries_rankLeague_filter]
  refine List.map_congr_left (fun r hr => ?_)
  have hpL : (r.gameweek == g && teamLeague u r.fantasy_team_id == some L) = true :=
    mem_gwEntries u g L r hr
  rw [if_pos ((Bool.and_eq_true _ _).mp hpL).1]

/-- Ranking a run of other leagues leaves this league's gameweek rows
unchanged. -/
theorem gwEntries_rankFold_ne (g L : Nat) :
    ∀ (Ms : List Nat) (u : DBState), L ∉ Ms →
      gwEntries (Ms.foldl (rankLeague g) u) g L = gwEntries u g L
  | [], _, _ => rfl
  | M :: Ms, u, h => by
    rw [List.foldl_cons,
      gwEntries_rankFold_ne g L Ms _ (fun hm => h (List.mem_cons_of_mem M hm)),
      gwEntries_rankLeague_ne g u M L (fun he => h (he ▸ List.mem_cons_self M Ms))]

instance : IsTotal FtgpRow (fun a b => b.points ≤ a.points) :=
  ⟨fun a b => le_total b.points a.points⟩

instance : IsTrans FtgpRow (fun a b => b.points ≤ a.points) :=
  ⟨fun _ _ _ h1 h2 => le_trans h2 h1⟩

/-- The sorted league entries are a permutation of the league entries. -/
theorem sortedEntries_perm (g : Nat) (u : DBState) (L : Nat) :
    List.Perm (sortedEntries g u L) (gwEntries u g L) :=
  List.perm_insertionSort _ _

/-- The sorted league entries are in non-increasing points order. -/
theorem sortedEntries_sorted (g : Nat) (u : DBState) (L : Nat) :
    List.Sorted (fun a b : FtgpRow => b.points ≤ a.points) (sortedEntries g u L) :=
  List.sorted_insertionSort _ _

/-- For a row of the league's entries, the ranked pairs assign the 1-based
position of the row in the sorted order. -/
theorem rankedPairs_find (g : Nat) (u : DBState) (L : Nat)
    (hkeys : (ftgpKeys u.ftgp).Nodup) :
    ∀ r ∈ gwEntries u g L, ∃ (j : Nat) (hj : j < (sortedEntries g u L).length),
      (sortedEntries g u L).get ⟨j, hj⟩ = r
      ∧ (rankedPairs g u L).find? (fun p => p.1 == r.fantasy_team_id)
          = some (r.fantasy_team_id, 1 + j) := by
  intro r hr
  have hSperm := sortedEntries_perm g u L
  have hSnodup : ((sortedEntries g u L).map (·.fantasy_team_id)).Nodup :=
    (List.Perm.nodup_iff (hSperm.map _)).mpr (gwEntries_teams_nodup u g L hkeys)
  have hrS : r ∈ sortedEntries g u L := (hSperm.mem_iff).mpr hr
  obtain ⟨⟨j, hj⟩, hget⟩ := List.mem_iff_get.mp hrS
  refine ⟨j, hj, hget, ?_⟩
  have h7 := assignRanks_find?_get (fun r2 : FtgpRow => r2.fantasy_team_id)
    (sortedEntries g u L) 1 j hj hSnodup
  rw [hget] at h7
  unfold rankedPairs
  exact h7

/-- Ranking one league: the league's gameweek rows keep their teams, their
ranks become exactly 1..n following non-increasing points, with rank ties
impossible. -/
theorem rankLeague_self_spec (g : Nat) (u : DBState) (L : Nat)
    (hkeys : (ftgpKeys u.ftgp).Nodup) :
    (gwEntries (rankLeague g u L) g L).length = (gwEntries u g L).length
    ∧ (gwEntries (rankLeague g u L) g L).map (·.fantasy_team_id)
        = (gwEntries u g L).map (·.fantasy_team_id)
    ∧ List.Perm ((gwEntries (rankLeague g u L) g L).map (·.rank_in_league))
        ((List.range' 1 (gwEntries u g L).length).map some)
    ∧ (∀ r1 ∈ gwEntries (rankLeague g u L) g L,
        ∀ r2 ∈ gwEntries (rankLeague g u L) g L,
        ∀ i j : Nat, r1.rank_in_league = some i → r2.rank_in_league = some j →
        i ≤ j → r2.points ≤ r1.points) := by
  have hrows := gwEntries_rankLeague_self g u L
  have hSperm := sortedEntries_perm g u L
  have hSlen : (sortedEntries g u L).length = (gwEntries u g L).length :=
    hSperm.length_eq
  have hSsorted := sortedEntries_sorted g u L
  have hfind := rankedPairs_find g u L hkeys
  refine ⟨?_, ?_, ?_, ?_⟩
  · rw [hrows, List.length_map]
  · rw [hrows, List.map_map]
    refine List.map_congr_left (fun r _ => ?_)
    exact (rankAssignment_fields (rankedPairs g u L) r).1
  · rw [hrows, List.map_map]
    have hperm2 : List.Perm
        ((gwEntries u g L).map
          (fun r => (rankAssignment (rankedPairs g u L) r).rank_in_league))
        ((sortedEntries g u L).map
          (fun r => (rankAssignment (rankedPairs g u L) r).rank_in_league)) :=
      (hSperm.symm).map _
    have heq : (sortedEntries g u L).map
        (fun r => (rankAssignment (rankedPairs g u L) r).rank_in_league)
        = (List.range' 1 (gwEntries u g L).length).map some := by
      apply List.ext_get
      · rw [List.length_map, List.length_map, List.length_range', hSlen]
      · intro n h1 h2
        have hn : n < (sortedEntries g u L).length := by
          rw [List.length_map] at h1
          exact h1
        have hmem : (sortedEntries g u L).get ⟨n, hn⟩ ∈ gwEntries u g L :=
          (hSperm.mem_iff).mp ((sortedEntries g u L).get_mem n hn)
        obtain ⟨j, hj, hget, hfound⟩ := hfind _ hmem
        have hSnodup : ((sortedEntries g u L).map (·.fantasy_team_id)).Nodup :=
          (List.Perm.nodup_iff (hSperm.map _)).mpr (gwEntries_teams_nodup u g L hkeys)
        have hfound2 := assignRanks_find?_get (fun r2 : FtgpRow => r2.fantasy_team_id)
          (sortedEntries g u L) 1 n hn hSnodup
        simp only [List.get_map]
        unfold rankAssignment
        rw [show (rankedPairs g u L).find?
            (fun p => p.1 == ((sortedEntries g u L).get ⟨n, hn⟩).fantasy_team_id)
          = some (((sortedEntries g u L).get ⟨n, hn⟩).fantasy_team_id, 1 + n) from by
            unfold rankedPairs; exact hfound2]
        have hr2 : n < (List.range' 1 (gwEntries u g L).length).length := by
          rw [List.length_range']
          rw [List.length_map, List.length_range'] at h2
          exact h2
        have hrg : (List.range' 1 (gwEntries u g L).length).get ⟨n, hr2⟩ = 1 + n := by
          simp [List.get_range']
        simp [hrg]
    rw [heq] at hperm2
    exact hperm2
  · intro r1 hr1 r2 hr2 i j hi hj hij
    rw [hrows] at hr1 hr2
    obtain ⟨e1, he1, hfe1⟩ := List.mem_map.mp hr1
    obtain ⟨e2, he2, hfe2⟩ := List.mem_map.mp hr2
    obtain ⟨j1, hj1, hget1, hfound1⟩ := hfind e1 he1
    obtain ⟨j2, hj2, hget2, hfound2⟩ := hfind e2 he2
    have hrank1 : r1.rank_in_league = some (1 + j1) := by
      rw [← hfe1]
      unfold rankAssignment
      rw [hfound1]
    have hrank2 : r2.rank_in_league = some (1 + j2) := by
      rw [← hfe2]
      unfold rankAssignment
      rw [hfound2]
    have hi2 : i = 1 + j1 := by rw [hrank1] at hi; exact (Option.some.inj hi).symm
    have hj2e : j = 1 + j2 := by rw [hrank2] at hj; exact (Option.some.inj hj).symm
    have hpts1 : r1.points = e1.points := by
      rw [← hfe1]
      exact (rankAssignment_fields (rankedPairs g u L) e1).2.2
    have hpts2 : r2.points = e2.points := by
      rw [← hfe2]
      exact (rankAssignment_fields (rankedPairs g u L) e2).2.2
    rw [hpts1, hpts2, ← hget1, ← hget2]
    rcases Nat.lt_or_ge j1 j2 with hlt | hge
    · exact hSsorted.rel_get_of_lt (by exact Fin.mk_lt_mk.mpr hlt)
    · have hje : j1 = j2 := by omega
      subst hje
      rfl

/-- With duplicate-free keys and an existing row for the key, the filter by the
key has exactly one row. -/
theorem filter_key_length_one (t g : Nat) :
    ∀ (l : List FtgpRow), (ftgpKeys l).Nodup →
      (∃ r, r ∈ l ∧ r.fantasy_team_id = t ∧ r.gameweek = g) →
      (l.filter (fun r => r.fantasy_team_id == t && r.gameweek == g)).length = 1
  | [], _, hex => by
    rcases hex with ⟨r, hr, _⟩
    exact absurd hr (List.not_mem_nil r)
  | x :: xs, hnd, hex => by
    unfold ftgpKeys at hnd
    rw [List.map_cons] at hnd
    obtain ⟨h1, h2⟩ := List.nodup_cons.mp hnd
    rw [List.filter_cons]
    by_cases hx : (x.fantasy_team_id == t && x.gameweek == g) = true
    · rw [if_pos hx]
      have hxkey : x.fantasy_team_id = t ∧ x.gameweek = g := by simpa using hx
      have hnil : xs.filter (fun r => r.fantasy_team_id == t && r.gameweek == g) = [] := by
        rw [List.filter_eq_nil_iff]
        intro a ha hpa
        have hak : a.fantasy_team_id = t ∧ a.gameweek = g := by simpa using hpa
        refine h1 ?_
        have hke : (a.fantasy_team_id, a.gameweek) = (x.fantasy_team_id, x.gameweek) := by
          rw [hak.1, hak.2, hxkey.1, hxkey.2]
        exact hke ▸ List.mem_map_of_mem _ ha
      rw [hnil]
      rfl
    · rw [if_neg hx]
      rcases hex with ⟨r, hr, hrt, hrg⟩
      rcases List.mem_cons.mp hr with rfl | hr2
      · exact absurd (by simp [hrt, hrg]) hx
      · exact filter_key_length_one t g xs h2 ⟨r, hr2, hrt, hrg⟩

/-- With duplicate-free team ids, the looked-up league is `some L` exactly when
a team row carries the id and that league. -/
theorem teamLeague_eq_some_iff (s : DBState)
    (hnd : (s.fantasy_teams.map (·.fantasy_team_id)).Nodup) (t L : Nat) :
    teamLeague s t = some L
      ↔ ∃ ft ∈ s.fantasy_teams, ft.fantasy_team_id = t ∧ ft.league_id = some L := by
  constructor
  · intro h
    unfold teamLeague at h
    cases hf : s.fantasy_teams.find? (fun ft => ft.fantasy_team_id == t) with
    | none => rw [hf] at h; exact absurd h (by simp)
    | some ft =>
      rw [hf] at h
      refine ⟨ft, List.mem_of_find?_eq_some hf, ?_, h⟩
      have h5 := List.find?_some hf
      simpa using h5
  · intro ⟨ft, hmem, hid, hlg⟩
    unfold teamLeague
    subst hid
    rw [find?_eq_of_mem_of_nodup s.fantasy_teams ft hmem hnd]
    exact hlg

/-- The ids of a league's teams depend only on the (id, league) projection. -/
theorem leagueTeams_ids_congr (s s2 : DBState) (h : idsLeagues s = idsLeagues s2)
    (L : Nat) :
    (leagueTeams s L).map (·.fantasy_team_id)
      = (leagueTeams s2 L).map (·.fantasy_team_id) := by
  have hgen : ∀ (u : DBState), (leagueTeams u L).map (·.fantasy_team_id)
      = ((idsLeagues u).filter (fun p => p.2 == some L)).map Prod.fst := by
    intro u
    unfold leagueTeams idsLeagues
    rw [List.filter_map, List.map_map]
    rfl
  rw [hgen s, hgen s2, h]

/-- The team loop, ranking loop and status update preserve duplicate-freedom of
keys down to the final state. -/
theorem ftgpKeys_loopLeagues (g : Nat) (s : DBState) :
    ftgpKeys (loopLeagues g s).ftgp = ftgpKeys s.ftgp := by
  unfold loopLeagues
  exact ftgpKeys_rankFold g _ s

/-- The finalization body preserves the key projection of the points table. -/
theorem ftgpKeys_finalizeCore (db : StaticDB) (g : Nat) (s : DBState) :
    ftgpKeys (finalizeCore db g s).ftgp
      = ftgpKeys (loopTeams db g s).ftgp := by
  have h1 : ftgpKeys (finalizeCore db g s).ftgp
      = ftgpKeys (loopLeagues g (loopTeams db g s)).ftgp := rfl
  rw [h1, ftgpKeys_loopLeagues]

/-- The league-entry rows of the finalized state are those after the ranking
loop. -/
theorem gwEntries_finalizeCore (db : StaticDB) (g : Nat) (s : DBState) (g2 L : Nat) :
    gwEntries (finalizeCore db g s) g2 L
      = gwEntries (loopLeagues g (loopTeams db g s)) g2 L := rfl

/-- The whole finalization preserves the (id, league) projection. -/
theorem idsLeagues_finalize (db : StaticDB) (g : Nat) (s : DBState) :
    idsLeagues (finalizeCore db g s) = idsLeagues s := by
  rw [idsLeagues_finalizeCore, idsLeagues_loopLeagues, idsLeagues_loopTeams]

/-- C4: after a successful `finalize_gameweek(G)`, every league-assigned team
has exactly one points record for G; and within each league present, the rank
values of the league's records for G form the contiguous sequence 1..n (as a
multiset), ranks increase only as points do not increase (rank 1 therefore
carries the highest points, ties broken deterministically), and the records'
teams are exactly the league's teams. -/
theorem C4_rank_assignment (db : StaticDB) (s s2 : DBState) (g L : Nat)
    (hnd : (s.fantasy_teams.map (·.fantasy_team_id)).Nodup)
    (hkeys : (ftgpKeys s.ftgp).Nodup)
    (hok : finalize_gameweek db s g = Except.ok s2)
    (hL : L ∈ distinctLeagues s) :
    (∀ ft ∈ s2.fantasy_teams, ft.league_id.isSome = true →
      (s2.ftgp.filter (fun r =>
        r.fantasy_team_id == ft.fantasy_team_id && r.gameweek == g)).length = 1)
    ∧ List.Perm ((gwEntries s2 g L).map (·.rank_in_league))
        ((List.range' 1 (gwEntries s2 g L).length).map some)
    ∧ (∀ r1 ∈ gwEntries s2 g L, ∀ r2 ∈ gwEntries s2 g L,
        ∀ i j : Nat, r1.rank_in_league = some i → r2.rank_in_league = some j →
        i ≤ j → r2.points ≤ r1.points)
    ∧ List.Perm ((gwEntries s2 g L).map (·.fantasy_team_id))
        ((leagueTeams s2 L).map (·.fantasy_team_id)) := by
  unfold finalize_gameweek at hok
  by_cases hany : (s.gameweeks.any (fun gw => gw.gameweek_number == g)) = true
  · rw [if_pos hany] at hok
    have hs2 : s2 = finalizeCore db g s := (Except.ok.inj hok).symm
    subst hs2
    have hidsA : idsLeagues (loopTeams db g s) = idsLeagues s := idsLeagues_loopTeams db g s
    have hkeysA : (ftgpKeys (loopTeams db g s).ftgp).Nodup := by
      unfold loopTeams
      exact ftgpKeys_nodup_loop1 db g _ s hkeys
    have hids2 : idsLeagues (finalizeCore db g s) = idsLeagues s := idsLeagues_finalize db g s
    have hLs : distinctLeagues (loopTeams db g s) = distinctLeagues s :=
      distinctLeagues_congr _ s hidsA
    have hLm : L ∈ distinctLeagues (loopTeams db g s) := by rw [hLs]; exact hL
    have hLnd : (distinctLeagues (loopTeams db g s)).Nodup := List.nodup_dedup _
    obtain ⟨P, Q, hPQ⟩ := List.append_of_mem hLm
    have hnotPQ : L ∉ P ∧ L ∉ Q := by
      rw [hPQ, List.nodup_append] at hLnd
      obtain ⟨_, hnQ, hdisj⟩ := hLnd
      exact ⟨fun hp => hdisj hp (List.mem_cons_self L Q), (List.nodup_cons.mp hnQ).1⟩
    set sP := P.foldl (rankLeague g) (loopTeams db g s) with hsP
    have hfold : loopLeagues g (loopTeams db g s)
        = Q.foldl (rankLeague g) (rankLeague g sP L) := by
      unfold loopLeagues
      rw [hPQ, List.foldl_append, List.foldl_cons]
    have hkeysP : (ftgpKeys sP.ftgp).Nodup := by
      rw [hsP, ftgpKeys_rankFold]
      exact hkeysA
    have hEeq : gwEntries sP g L = gwEntries (loopTeams db g s) g L := by
      rw [hsP]
      exact gwEntries_rankFold_ne g L P _ hnotPQ.1
    have hrows2 : gwEntries (finalizeCore db g s) g L
        = gwEntries (rankLeague g sP L) g L := by
      rw [gwEntries_finalizeCore, hfold]
      exact gwEntries_rankFold_ne g L Q _ hnotPQ.2
    obtain ⟨hlen, hteams, hperm, hmono⟩ := rankLeague_self_spec g sP L hkeysP
    refine ⟨?_, ?_, ?_, ?_⟩
    · intro ft hft hlgft
      have hpair : (ft.fantasy_team_id, ft.league_id) ∈ idsLeagues s := by
        rw [← hids2]
        exact List.mem_map_of_mem _ hft
      obtain ⟨ft0, hft0, hp0⟩ := List.mem_map.mp hpair
      have hid0 : ft0.fantasy_team_id = ft.fantasy_team_id := congrArg Prod.fst hp0
      have hlg0 : ft0.league_id = ft.league_id := congrArg Prod.snd hp0
      have hobs := (loopTeams_obs db g s ft0 hft0 (by rw [hlg0]; exact hlgft) hnd).2
      have hval : ftgpPointsOf (finalizeCore db g s) ft0.fantasy_team_id g
          = some (calculate_fantasy_team_points db ft0.fantasy_team_id g) := by
        rw [ftgpPointsOf_finalizeCore, ftgpPointsOf_loopLeagues]
        exact hobs
      unfold ftgpPointsOf at hval
      cases hf : (finalizeCore db g s).ftgp.find?
          (fun r => r.fantasy_team_id == ft0.fantasy_team_id && r.gameweek == g) with
      | none => rw [hf] at hval; exact absurd hval (by simp)
      | some r0 =>
        have hr0mem := List.mem_of_find?_eq_some hf
        have hr0key : r0.fantasy_team_id = ft0.fantasy_team_id ∧ r0.gameweek = g := by
          have h5 := List.find?_some hf
          simpa using h5
        have hkeys2 : (ftgpKeys (finalizeCore db g s).ftgp).Nodup := by
          rw [ftgpKeys_finalizeCore]
          exact hkeysA
        exact filter_key_length_one ft.fantasy_team_id g (finalizeCore db g s).ftgp hkeys2
          ⟨r0, hr0mem, by rw [hr0key.1, hid0], hr0key.2⟩
    · rw [hrows2, hlen]
      exact hperm
    · intro r1 hr1 r2 hr2 i j hi hj hij
      rw [hrows2] at hr1 hr2
      exact hmono r1 hr1 r2 hr2 i j hi hj hij
    · rw [hrows2, hteams, hEeq]
      have hlt : (leagueTeams (finalizeCore db g s) L).map (·.fantasy_team_id)
          = (leagueTeams s L).map (·.fantasy_team_id) :=
        (leagueTeams_ids_congr s (finalizeCore db g s) hids2.symm L).symm
      rw [hlt]
      have hnodup1 : ((gwEntries (loopTeams db g s) g L).map (·.fantasy_team_id)).Nodup :=
        gwEntries_teams_nodup _ g L hkeysA
      have hnodup2 : ((leagueTeams s L).map (·.fantasy_team_id)).Nodup :=
        List.Nodup.sublist
          (List.Sublist.map _ (List.filter_sublist s.fantasy_teams)) hnd
      refine (List.perm_ext_iff_of_nodup hnodup1 hnodup2).mpr (fun a => ?_)
      constructor
      · intro ha
        rcases List.mem_map.mp ha with ⟨r, hrE, hrteam⟩
        have hpred := mem_gwEntries _ g L r hrE
        have hb := (Bool.and_eq_true _ _).mp hpred
        have hTL : teamLeague (loopTeams db g s) r.fantasy_team_id = some L := by
          simpa using hb.2
        have hTLs : teamLeague s r.fantasy_team_id = some L := by
          rw [← teamLeague_congr (loopTeams db g s) s hidsA]
          exact hTL
        obtain ⟨ft0, hft0, hid0, hlg0⟩ := (teamLeague_eq_some_iff s hnd _ L).mp hTLs
        rw [← hrteam, ← hid0]
        exact List.mem_map_of_mem _ (List.mem_filter.mpr ⟨hft0, by simp [hlg0]⟩)
      · intro ha
        rcases List.mem_map.mp ha with ⟨ft0, hft0f, hid0⟩
        have hft0 := List.mem_of_mem_filter hft0f
        have hlg0 : ft0.league_id = some L := by
          have h5 := (List.mem_filter.mp hft0f).2
          simpa using h5
        have hobs := (loopTeams_obs db g s ft0 hft0 (by simp [hlg0]) hnd).2
        unfold ftgpPointsOf at hobs
        cases hf : (loopTeams db g s).ftgp.find?
            (fun r => r.fantasy_team_id == ft0.fantasy_team_id && r.gameweek == g) with
        | none => rw [hf] at hobs; exact absurd hobs (by simp)
        | some r0 =>
          have hr0mem := List.mem_of_find?_eq_some hf
          have hr0key : r0.fantasy_team_id = ft0.fantasy_team_id ∧ r0.gameweek = g := by
            have h5 := List.find?_some hf
            simpa using h5
          have hTLs : teamLeague s ft0.fantasy_team_id = some L :=
            (teamLeague_eq_some_iff s hnd _ L).mpr ⟨ft0, hft0, rfl, hlg0⟩
          have hTL : teamLeague (loopTeams db g s) ft0.fantasy_team_id = some L := by
            rw [teamLeague_congr (loopTeams db g s) s hidsA]
            exact hTLs
          have hrE : r0 ∈ gwEntries (loopTeams db g s) g L := by
            unfold gwEntries
            refine List.mem_filter.mpr ⟨hr0mem, ?_⟩
            simp [hr0key.1, hr0key.2, hTL]
          rw [← hid0, ← hr0key.1]
          exact List.mem_map_of_mem _ hrE
  · rw [if_neg hany] at hok
    exact absurd hok (by simp)

/-- Static tables for the C4 witness: three one-starter teams; players score
7, 3 and 5 points in gameweek 1. -/
def c4db : StaticDB :=
  { rosters := [⟨1, 1, true, false, false⟩, ⟨2, 2, true, false, false⟩,
      ⟨3, 3, true, false, false⟩],
    players := [⟨1, "MID"⟩, ⟨2, "MID"⟩, ⟨3, "DEF"⟩],
    gameweek_scores := [⟨1, 1, 7, 90⟩, ⟨2, 1, 3, 90⟩, ⟨3, 1, 5, 90⟩] }

/-- Mutable state for the C4 witness: teams 1 and 2 in league 1, team 3 in
league 2; gameweek 1 exists. -/
def c4state : DBState :=
  { fantasy_teams := [⟨1, some 1, 0, 0, 1⟩, ⟨2, some 1, 0, 0, 1⟩,
      ⟨3, some 2, 0, 0, 1⟩],
    ftgp := [],
    gameweeks := [⟨1, 0, 3, "active"⟩] }

/-- The state after finalizing gameweek 1. -/
def c4s2 : DBState := applyFinalize c4db c4state 1

/-- Witness for C4 at a concrete input. -/
theorem C4_rank_assignment_witness :
    (∀ ft ∈ c4s2.fantasy_teams, ft.league_id.isSome = true →
      (c4s2.ftgp.filter (fun r =>
        r.fantasy_team_id == ft.fantasy_team_id && r.gameweek == 1)).length = 1)
    ∧ List.Perm ((gwEntries c4s2 1 1).map (·.rank_in_league))
        ((List.range' 1 (gwEntries c4s2 1 1).length).map some)
    ∧ (∀ r1 ∈ gwEntries c4s2 1 1, ∀ r2 ∈ gwEntries c4s2 1 1,
        ∀ i j : Nat, r1.rank_in_league = some i → r2.rank_in_league = some j →
        i ≤ j → r2.points ≤ r1.points)
    ∧ List.Perm ((gwEntries c4s2 1 1).map (·.fantasy_team_id))
        ((leagueTeams c4s2 1).map (·.fantasy_team_id)) :=
  C4_rank_assignment c4db c4state c4s2 1 1 (by decide) (by decide) (by rfl) (by decide)
